import Mathlib

set_option maxRecDepth 1000000

/-! # Shallow embedding of the grounded gap-analysis core of `executive-job-agent`

Embedded source files: `app/core/grounded_extract.py`,
`app/core/grounded_gap_engine.py`, `app/core/semantic_match.py`,
`app/core/objective_requirements.py`, `app/core/schema_grounded_gap.py`,
`app/core/build_evidence_cache.py`.

Modelling conventions:
* Python `str` is modelled as `List Char` (`Chars`).  The ASCII tables used
  here for `lower` / `isalnum` / the regex classes `\s` and `\w` agree with
  Python's Unicode-aware versions on ASCII text, which is all the lexicon,
  the regex literals and the claims use.
* Python floats are modelled as exact rationals `ℚ`; `int(round(x))` is
  Python 3 round-half-to-even, embedded as `pyRound`.
* `hashlib.sha256(s).hexdigest()` (`_hash_text`) is modelled by `hashText`,
  an injective code of the input string (here: the identity on `Chars`).
  The programs only compare hashes for equality, so any injective model is
  faithful up to SHA-256 collisions.
* sqlite is modelled by an explicit list of rows; `INSERT OR IGNORE` under
  `UNIQUE(resume_id, job_id, source_type, source_name, content_hash)`
  follows documented SQLite semantics: NULLs count as pairwise distinct
  inside a unique index, so rows with `job_id IS NULL` never conflict.
* The OpenAI embedding client behind `try_embed_texts` is an injected
  oracle parameter (`none` = import failed / client raised, both of which
  `try_embed_texts` turns into `None`).  `_cosine` divides by
  `math.sqrt(..)`, irrational in general, so the cosine kernel is likewise
  a parameter `cosFn`; no claim below depends on its value.
-/

abbrev Chars := List Char

/-- Convert a Lean string literal to the `Chars` model of a Python `str`. -/
def cs (s : String) : Chars := s.data

/-- Python whitespace (`str.strip`, regex `\s`), ASCII fragment:
space, tab, newline, carriage return, vertical tab, form feed. -/
def isSpacePy (c : Char) : Bool :=
  c == ' ' || c == '\t' || c == '\n' || c == '\r' ||
  c == Char.ofNat 11 || c == Char.ofNat 12

/-- Regex word character `\w`, ASCII fragment: `[A-Za-z0-9_]`. -/
def wordChar (c : Char) : Bool := c.isAlphanum || c == '_'

/-- Python `str.strip()` (no argument): drop whitespace from both ends. -/
def pyStrip (l : Chars) : Chars :=
  ((l.dropWhile isSpacePy).reverse.dropWhile isSpacePy).reverse

/-- Python `str.lower()` (ASCII fragment). -/
def lowerChars (l : Chars) : Chars := l.map Char.toLower

/-- Python `str.split("\n")`: split on every newline, keeping empty parts. -/
def splitOnNl : Chars → List Chars
  | [] => [[]]
  | c :: rest =>
    match splitOnNl rest with
    | [] => [[c]]
    | p :: ps => if c = '\n' then [] :: p :: ps else (c :: p) :: ps

/-- `re.sub(r"\r\n?", "\n", t)`: normalize line endings. -/
def normNl : Chars → Chars
  | [] => []
  | '\r' :: '\n' :: rest => '\n' :: normNl rest
  | '\r' :: rest => '\n' :: normNl rest
  | c :: rest => c :: normNl rest

/-- Python `"\n".join(lines)`. -/
def joinNl (ls : List Chars) : Chars := List.intercalate ['\n'] ls

/-- Boolean list-prefix test (mirrors Python `str.startswith`). -/
def isPrefixB : Chars → Chars → Bool
  | [], _ => true
  | _ :: _, [] => false
  | a :: as, b :: bs => a == b && isPrefixB as bs

/-- Boolean substring test (mirrors Python `needle in haystack`). -/
def isInfixB (needle : Chars) : Chars → Bool
  | [] => isPrefixB needle []
  | c :: rest => isPrefixB needle (c :: rest) || isInfixB needle rest

/-- Python 3 `round` to an integer: round half to even. -/
def pyRound (q : ℚ) : ℤ :=
  let f : ℤ := ⌊q⌋
  let r : ℚ := q - (f : ℚ)
  if r < 1/2 then f
  else if 1/2 < r then f + 1
  else if f % 2 = 0 then f else f + 1

/-- `grounded_gap_engine._classify(match_strength, must_have)`
(grounded_gap_engine.py lines 107-113). -/
def classify (match_strength : ℚ) (must_have : Bool) : String :=
  if match_strength ≥ 0.65 then "match"
  else if match_strength ≥ 0.35 then "partial"
  else if must_have then "gap" else "signal_gap"

/-- `grounded_gap_engine._to_pct(x) = int(round(max(0.0, min(1.0, x)) * 100))`. -/
def toPct (x : ℚ) : ℤ := pyRound (max 0 (min 1 x) * 100)

/-- C2 (confirmed): the classification of a top-match score `s` is
`"match"` iff `s ≥ 0.65`, `"partial"` iff `0.35 ≤ s < 0.65`, and otherwise
`"gap"` for `must_have = true` and `"signal_gap"` for `must_have = false`;
in particular `0.65 ↦ match`, `0.649 ↦ partial`, `0.35 ↦ partial`,
`0.349 ↦ gap` (must-have) / `signal_gap` (not must-have). -/
theorem c2_classify_thresholds :
    (∀ s : ℚ, ∀ mh : Bool,
      ((classify s mh = "match") ↔ (0.65 : ℚ) ≤ s) ∧
      ((classify s mh = "partial") ↔ ((0.35 : ℚ) ≤ s ∧ s < 0.65)) ∧
      ((classify s true = "gap") ↔ s < 0.35) ∧
      ((classify s false = "signal_gap") ↔ s < 0.35)) ∧
    classify 0.65 true = "match" ∧ classify 0.65 false = "match" ∧
    classify 0.649 true = "partial" ∧ classify 0.649 false = "partial" ∧
    classify 0.35 true = "partial" ∧ classify 0.35 false = "partial" ∧
    classify 0.349 true = "gap" ∧ classify 0.349 false = "signal_gap" := by
  refine ⟨fun s mh => ⟨?_, ?_, ?_, ?_⟩, ?_, ?_, ?_, ?_, ?_, ?_, ?_, ?_⟩
  case _ => unfold classify; split_ifs <;> simp_all <;> linarith
  case _ => unfold classify; split_ifs <;> simp_all <;> linarith
  case _ => unfold classify; split_ifs <;> simp_all <;> linarith
  case _ => unfold classify; split_ifs <;> simp_all <;> linarith
  all_goals with_unfolding_all decide

/-- Helper for `_tokenize`: collect maximal alphanumeric runs
(the `buf`/`out` loop of grounded_gap_engine.py lines 12-22). -/
def alnumRuns : Chars → Chars → List Chars
  | buf, [] => if buf.isEmpty then [] else [buf.reverse]
  | buf, c :: rest =>
    if c.isAlphanum then alnumRuns (c :: buf) rest
    else if buf.isEmpty then alnumRuns [] rest
    else buf.reverse :: alnumRuns [] rest

/-- `grounded_gap_engine._tokenize(s)`: lowercase, split into alphanumeric
runs, drop tokens shorter than 3 characters (lines 10-24). -/
def tokenize (s : Chars) : List Chars :=
  (alnumRuns [] (lowerChars s)).filter (fun t => 3 ≤ t.length)

/-- `grounded_gap_engine._jaccard(a, b)` on token lists, via the
underlying token sets (lines 27-33). -/
def jaccard (a b : List Chars) : ℚ :=
  let sa := a.toFinset
  let sb := b.toFinset
  if sa = ∅ ∨ sb = ∅ then 0
  else if (sa ∪ sb).card = 0 then 0
  else ((sa ∩ sb).card : ℚ) / ((sa ∪ sb).card : ℚ)

/-- `grounded_extract.TAG_LEXICON` (grounded_extract.py lines 12-27),
in dict insertion order. -/
def TAG_LEXICON : List (String × List String) :=
  [("corporate_narrative", ["corporate narrative", "company narrative", "positioning", "reputation", "brand trust"]),
   ("thought_leadership", ["thought leadership", "op-ed", "keynote", "panel", "speaker", "speaking", "byline"]),
   ("executive_comms", ["executive communications", "ceo", "cfo", "exec", "leadership team", "board", "executive presence"]),
   ("media_relations", ["media relations", "journalist", "press", "earned media", "pitch", "story pitch", "newsroom"]),
   ("product_comms", ["product communications", "launch", "milestone", "product", "platform", "solution", "gtm"]),
   ("internal_comms", ["internal communications", "employee communications", "all-hands", "town hall", "culture", "people & culture"]),
   ("financial_comms", ["financial communications", "earnings", "investor", "ir", "analyst", "guidance", "s-1", "ipo"]),
   ("crisis_issues", ["crisis", "issues management", "incident", "reputation risk", "rapid response", "war room"]),
   ("policy_public_affairs", ["public policy", "government affairs", "public affairs", "dc", "washington", "regulatory", "legislation"]),
   ("regulated_healthcare", ["fda", "hipaa", "clinical", "healthcare", "biotech", "life sciences", "medtech", "health tech", "pharma"]),
   ("measurement", ["measurement", "metrics", "kpi", "share of voice", "sentiment", "dashboard", "effectiveness"]),
   ("agency_management", ["agency", "pr agency", "agency relationship", "retainer", "vendor"]),
   ("partner_comms", ["partner", "partnership", "alliances", "customer", "stakeholder"]),
   ("writing_materials", ["press release", "blog", "q&a", "messaging", "talking points", "presentation", "speech", "guidelines"])]

/-- The tag loop of `tag_and_extract_signals` (grounded_extract.py lines
142-147): a chunk receives a tag when any keyword is a substring of the
lowercased chunk; dict insertion order, one hit per tag (`break`). -/
def rawTags (text : Chars) : List String :=
  let low := lowerChars text
  TAG_LEXICON.filterMap fun p =>
    if p.2.any (fun kw => isInfixB (lowerChars (cs kw)) low) then some p.1 else none

/-- Stable ascending insertion used to embed Python `sorted` on strings. -/
def insertStrAsc (x : String) : List String → List String
  | [] => [x]
  | y :: ys => if x < y then x :: y :: ys else y :: insertStrAsc x ys

/-- Python `sorted` on a list of strings (code-point lexicographic). -/
def sortStrsAsc (l : List String) : List String :=
  l.foldl (fun acc x => insertStrAsc x acc) []

/-- Character of `t` at index `i`, a virtual non-word blank past the end. -/
def isWordPos (t : Chars) (i : ℕ) : Bool := wordChar (t.getD i ' ')

/-- Regex `\b` at position `i` of `t` (positions `0 … t.length`):
the word-character status changes between `i-1` and `i`; positions outside
the text count as non-word. -/
def boundaryAt (t : Chars) (i : ℕ) : Bool :=
  (if i = 0 then false else isWordPos t (i - 1)) != isWordPos t i

/-- Leftmost non-overlapping scan, the skeleton of `re.finditer`:
`matchAt i` yields the match length at `i` and its value; scanning resumes
after each match.  `fuel` = text length + 1 bounds the recursion. -/
def scanAll {α : Type} (matchAt : ℕ → Option (ℕ × α)) : ℕ → ℕ → List α
  | 0, _ => []
  | fuel + 1, i =>
    match matchAt i with
    | some (len, a) => a :: scanAll matchAt fuel (i + max 1 len)
    | none => scanAll matchAt fuel (i + 1)

/-- First match of a scan, the skeleton of `re.search`. -/
def scanFirst {α : Type} (matchAt : ℕ → Option (ℕ × α)) : ℕ → ℕ → Option α
  | 0, _ => none
  | fuel + 1, i =>
    match matchAt i with
    | some (_, a) => some a
    | none => scanFirst matchAt fuel (i + 1)

/-- Digit run length at the head of a suffix. -/
def digitRun (s : Chars) : ℕ := (s.takeWhile Char.isDigit).length

/-- Case-insensitive k/m/b magnitude suffix of `RE_METRICS`/`RE_BUDGET`. -/
def isKmb (c : Char) : Bool :=
  c.toLower == 'k' || c.toLower == 'm' || c.toLower == 'b'

/-- Numeric value of a digit string (Python `int`). -/
def digitsToNat (d : Chars) : ℕ := d.foldl (fun acc c => 10 * acc + (c.toNat - 48)) 0

/-- Python `float` of a digit string with an optional fractional part. -/
def numValue (intPart : Chars) (frac : Option Chars) : ℚ :=
  (digitsToNat intPart : ℚ) +
    (match frac with
     | none => 0
     | some f => (digitsToNat f : ℚ) / ((10 : ℚ) ^ f.length))

/-- `RE_METRICS` alternative 1, `\b\d{1,3}%\b`, at position `i`:
a boundary, one to three digits (necessarily the whole digit run), `%`,
and a final word boundary. -/
def metricsAltPct (t : Chars) (i : ℕ) : Option (ℕ × Chars) :=
  let s := t.drop i
  let r := digitRun s
  if boundaryAt t i && decide (1 ≤ r) && decide (r ≤ 3) &&
      (s.getD r ' ' == '%') && boundaryAt t (i + r + 1) then
    some (r + 1, s.take (r + 1))
  else none

/-- Shared tail of `RE_METRICS` alternatives 2 and 3:
`(?:\.\d+)?\s?(?:k|m|b)\b` after the integer digit run.  `s` is the suffix
after the digits, `p` its absolute position.  Returns the consumed length.
Greedy `\s?` backtracks at most into the no-space branch, and shortening
the digit or fraction runs can never help, so the match is deterministic. -/
def metricsTail (t : Chars) (s : Chars) (p : ℕ) : Option ℕ :=
  let fr :=
    match s with
    | '.' :: rest => if 1 ≤ digitRun rest then 1 + digitRun rest else 0
    | _ => 0
  let s1 := s.drop fr
  if isKmb (s1.getD 0 ' ') && boundaryAt t (p + fr + 1) then some (fr + 1)
  else if (s1.getD 0 ' ' == ' ') && isKmb (s1.getD 1 ' ') &&
      boundaryAt t (p + fr + 2) then some (fr + 2)
  else none

/-- `RE_METRICS` alternative 2, `\$\s?\d+(?:\.\d+)?\s?(?:k|m|b)\b`. -/
def metricsAltDollar (t : Chars) (i : ℕ) : Option (ℕ × Chars) :=
  let s := t.drop i
  if s.getD 0 ' ' == '$' then
    let w := if isSpacePy (s.getD 1 ' ') then 1 else 0
    let s2 := s.drop (1 + w)
    let r := digitRun s2
    if 1 ≤ r then
      match metricsTail t (s2.drop r) (i + 1 + w + r) with
      | some tl => some (1 + w + r + tl, s.take (1 + w + r + tl))
      | none => none
    else none
  else none

/-- `RE_METRICS` alternative 3, `\b\d+(?:\.\d+)?\s?(?:k|m|b)\b`. -/
def metricsAltBare (t : Chars) (i : ℕ) : Option (ℕ × Chars) :=
  let s := t.drop i
  let r := digitRun s
  if boundaryAt t i && decide (1 ≤ r) then
    match metricsTail t (s.drop r) (i + r) with
    | some tl => some (r + tl, s.take (r + tl))
    | none => none
  else none

/-- `grounded_extract.RE_METRICS` (line 29) at one position: the three
alternatives in pattern order; the value is the matched text
(`m.group(0)`). The `\s?` of alternative 2 takes the space only when a
digit follows, exactly as the greedy regex does. -/
def metricsMatchAt (t : Chars) (i : ℕ) : Option (ℕ × Chars) :=
  (metricsAltPct t i).orElse fun _ =>
    (metricsAltDollar t i).orElse fun _ => metricsAltBare t i

/-- `grounded_extract.RE_TEAM` (line 30),
`\b(team of|managed|led)\s+(\d{1,4})\b`, at one position; the value is
`int(group(2))`.  The phrase alternatives have pairwise distinct first
letters, `\s+` is a maximal whitespace run (digits follow), and `\d{1,4}`
with a trailing `\b` forces the whole digit run, of length at most 4. -/
def teamMatchAt (t : Chars) (i : ℕ) : Option (ℕ × ℤ) :=
  let s := lowerChars (t.drop i)
  let phrase :=
    if isPrefixB (cs "team of") s then some 7
    else if isPrefixB (cs "managed") s then some 7
    else if isPrefixB (cs "led") s then some 3 else none
  match phrase with
  | none => none
  | some pl =>
    if boundaryAt t i then
      let s1 := s.drop pl
      let w := (s1.takeWhile isSpacePy).length
      let s2 := s1.drop w
      let r := digitRun s2
      if decide (1 ≤ w) && decide (1 ≤ r) && decide (r ≤ 4) &&
          boundaryAt t (i + pl + w + r) then
        some (pl + w + r, (digitsToNat (s2.take r) : ℤ))
      else none
    else none

/-- `grounded_extract.RE_BUDGET` (line 31),
`\bbudget\s*(?:of)?\s*\$?\s*(\d+(?:\.\d+)?)\s*(k|m|b)?\b`, at one
position; the value is `float(group(1))` scaled by the `group(2)`
multiplier.  Each `\s*` is a maximal whitespace run and each optional
piece is forced when present (its first character can never start the next
piece).  The trailing `(k|m|b)?\b` matches with the suffix when a k/m/b
letter follows the final run and has a boundary after it; otherwise the
bare `\b` is satisfiable by backtracking `\s*` iff the final whitespace
run is non-empty or the character after the number is a non-word one. -/
def budgetMatchAt (t : Chars) (i : ℕ) : Option (ℕ × ℚ) :=
  let s := lowerChars (t.drop i)
  if boundaryAt t i && isPrefixB (cs "budget") s then
    let s1 := s.drop 6
    let w1 := (s1.takeWhile isSpacePy).length
    let s2 := s1.drop w1
    let ofl := if isPrefixB (cs "of") s2 then 2 else 0
    let s3 := s2.drop ofl
    let w2 := (s3.takeWhile isSpacePy).length
    let s4 := s3.drop w2
    let dl := if s4.getD 0 ' ' == '$' then 1 else 0
    let s5 := s4.drop dl
    let w3 := (s5.takeWhile isSpacePy).length
    let s6 := s5.drop w3
    let r := digitRun s6
    if 1 ≤ r then
      let fr :=
        match s6.drop r with
        | '.' :: rest => if 1 ≤ digitRun rest then 1 + digitRun rest else 0
        | _ => 0
      let s7 := s6.drop (r + fr)
      let wv := numValue (s6.take r)
        (if fr = 0 then none else some ((s6.drop (r + 1)).take (fr - 1)))
      let p := i + 6 + w1 + ofl + w2 + dl + w3 + r + fr
      let w4 := (s7.takeWhile isSpacePy).length
      let s8 := s7.drop w4
      if isKmb (s8.getD 0 ' ') && boundaryAt t (p + w4 + 1) then
        let mult : ℚ :=
          if s8.getD 0 ' ' == 'k' then 1000
          else if s8.getD 0 ' ' == 'm' then 1000000 else 1000000000
        some (6 + w1 + ofl + w2 + dl + w3 + r + fr + w4 + 1, wv * mult)
      else if decide (1 ≤ w4) || !isWordPos t p then
        some (6 + w1 + ofl + w2 + dl + w3 + r + fr, wv)
      else none
    else none
  else none

/-- `grounded_extract.RE_YEARS` (line 32), `\b(\d{1,2})\+?\s+years?\b`,
at one position; the value is `int(group(1))`.  The digit run must have
length 1 or 2 (a longer run leaves a digit after the quantifier, killing
`\s+`), the optional `+` and the plural `s` are forced greedily with the
final `\b` checked after `s` first and after `r` as fallback. -/
def yearsMatchAt (t : Chars) (i : ℕ) : Option (ℕ × ℤ) :=
  let s := lowerChars (t.drop i)
  let r := digitRun s
  if boundaryAt t i && decide (1 ≤ r) && decide (r ≤ 2) then
    let s1 := s.drop r
    let pl := if s1.getD 0 ' ' == '+' then 1 else 0
    let s2 := s1.drop pl
    let w := (s2.takeWhile isSpacePy).length
    let s3 := s2.drop w
    if decide (1 ≤ w) && isPrefixB (cs "year") s3 then
      let p := i + r + pl + w + 4
      if (s3.getD 4 ' ' == 's') && boundaryAt t (p + 1) then
        some (r + pl + w + 5, (digitsToNat (s.take r) : ℤ))
      else if boundaryAt t p then
        some (r + pl + w + 4, (digitsToNat (s.take r) : ℤ))
      else none
    else none
  else none

/-- The `entities` dict of `tag_and_extract_signals`
(grounded_extract.py lines 184-186). -/
structure EntitiesV where
  metrics : List Chars
  deriving DecidableEq

/-- The `signals` dict of `tag_and_extract_signals`
(grounded_extract.py lines 187-198). -/
structure SignalsV where
  team_size : Option ℤ
  budget : Option ℚ
  years : Option ℤ
  mentions_ceo : Bool
  mentions_cmo : Bool
  mentions_board : Bool
  deriving DecidableEq

/-- `grounded_extract.tag_and_extract_signals(chunk)` (lines 138-209):
lexicon tags, regex entities/signals, and the heuristic confidence.
Note `len(tags)` in the confidence formula is measured before the final
`sorted(set(tags))` (the raw list is already duplicate-free). -/
def tagAndExtractSignals (chunk : Chars) :
    List String × EntitiesV × SignalsV × ℚ :=
  let text := chunk
  let low := lowerChars text
  let tags := rawTags text
  let metrics := scanAll (metricsMatchAt text) (text.length + 1) 0
  let team_size := scanFirst (teamMatchAt text) (text.length + 1) 0
  let budget := scanFirst (budgetMatchAt text) (text.length + 1) 0
  let years := scanFirst (yearsMatchAt text) (text.length + 1) 0
  let entities : EntitiesV := ⟨metrics.take 10⟩
  let signals : SignalsV :=
    ⟨team_size, budget, years,
     isInfixB (cs "ceo") low, isInfixB (cs "cmo") low, isInfixB (cs "board") low⟩
  let confidence : ℚ :=
    max 0 (min 1 ((0.35 : ℚ) + min 0.35 (0.08 * (tags.length : ℚ)) +
      (if metrics.isEmpty then 0 else 0.10) +
      (if team_size.isSome then 0.10 else 0)))
  (sortStrsAsc tags.dedup, entities, signals, confidence)

/-- Case-insensitive prefix test (`needle` given lowercase). -/
def isPrefixCI : Chars → Chars → Bool
  | [], _ => true
  | _ :: _, [] => false
  | a :: as, b :: bs => a == b.toLower && isPrefixCI as bs

/-- The heading keywords of `grounded_extract.SECTION_SPLIT` (lines
34-35), in alternation order.  No keyword is a prefix of another, so at
most one alternative can match at a given position. -/
def SECTION_KEYWORDS : List String :=
  ["experience", "professional experience", "leadership", "education",
   "skills", "summary", "highlights", "accomplishments", "projects",
   "publications", "speaking", "press", "media"]

/-- First heading keyword matching at the head of `s` (case-insensitive),
with its length. -/
def keywordLenAt (s : Chars) : Option ℕ :=
  (SECTION_KEYWORDS.filterMap fun kw =>
    if isPrefixCI (cs kw) s then some (cs kw).length else none).head?

/-- Index of the last newline in a character list, if any. -/
def lastNlPos (l : Chars) : Option ℕ :=
  (l.enum.filterMap fun p => if p.2 = '\n' then some p.1 else none).getLast?

/-- `SECTION_SPLIT` = `\n\s*(?:experience|…|media)\s*\n` (case-insensitive)
matched at the head of a suffix; returns the match length.  Both `\s*`
are maximal whitespace runs (the keywords start with letters), and the
trailing `\s*\n` greedily ends at the last newline of the second run. -/
def sectionMatchLen : Chars → Option ℕ
  | '\n' :: rest =>
    let w1 := (rest.takeWhile isSpacePy).length
    let r1 := rest.drop w1
    match keywordLenAt r1 with
    | none => none
    | some kl =>
      let r2 := r1.drop kl
      let w2 := r2.takeWhile isSpacePy
      match lastNlPos w2 with
      | none => none
      | some k => some (1 + (w1 + kl + k + 1))
  | _ => none

theorem sectionMatchLen_pos {s : Chars} {n : ℕ} (h : sectionMatchLen s = some n) :
    0 < n := by
  unfold sectionMatchLen at h
  split at h
  · dsimp only at h
    split at h
    · exact absurd h (by simp)
    · split at h
      · exact absurd h (by simp)
      · simp only [Option.some.injEq] at h
        omega
  · exact absurd h (by simp)

/-- `re.split(SECTION_SPLIT, t)`: the parts of `t` between leftmost
non-overlapping matches (the pattern has no capture groups, so only the
parts are returned). -/
def splitSectionsAux (acc : Chars) : Chars → List Chars
  | [] => [acc.reverse]
  | c :: rest =>
    match h : sectionMatchLen (c :: rest) with
    | some len => acc.reverse :: splitSectionsAux [] ((c :: rest).drop len)
    | none => splitSectionsAux (c :: acc) rest
termination_by s => s.length
decreasing_by
  · have := sectionMatchLen_pos h
    simp [List.length_drop]
    omega
  · simp

/-- `re.split(SECTION_SPLIT, t)` from the start of `t`. -/
def splitSections (t : Chars) : List Chars := splitSectionsAux [] t

/-- `grounded_extract._hash_text` = `hashlib.sha256(s).hexdigest()`,
modelled as an injective code of the input (the identity on `Chars`):
the repository only ever compares digests for equality, so this is
faithful up to SHA-256 collisions. -/
def hashText (s : Chars) : Chars := s

/-- The final exact-duplicate filter of `chunk_text` (grounded_extract.py
lines 127-135): drop chunks whose `_hash_text(section + "\n" + chunk)`
was already seen, preserving first-seen order. -/
def dedupChunks (seen : List Chars) : List (String × Chars) → List (String × Chars)
  | [] => []
  | (sec, ch) :: rest =>
    let h := hashText (cs sec ++ '\n' :: ch)
    if seen.contains h then dedupChunks seen rest
    else (sec, ch) :: dedupChunks (h :: seen) rest

/-- `flush()` of `chunk_text` (lines 92-100), acting on the loop state
`(chunks, buf, buf_len)`. -/
def flushChunk (secName : String) (st : List (String × Chars) × List Chars × ℕ) :
    List (String × Chars) × List Chars × ℕ :=
  if st.2.1.isEmpty then (st.1, [], 0)
  else
    let chunk := pyStrip (joinNl st.2.1)
    if chunk.isEmpty then (st.1, [], 0) else (st.1 ++ [(secName, chunk)], [], 0)

/-- One iteration of the line loop of `chunk_text` (lines 102-122). -/
def chunkLineStep (maxc minc : ℕ) (secName : String)
    (st : List (String × Chars) × List Chars × ℕ) (ln : Chars) :
    List (String × Chars) × List Chars × ℕ :=
  if ln.isEmpty then st
  else if maxc < ln.length then
    let st1 := flushChunk secName st
    let qty := (ln.length + maxc - 1) / maxc
    let pieces := (List.range qty).filterMap fun k =>
      let piece := pyStrip ((ln.drop (k * maxc)).take maxc)
      if piece.isEmpty then none else some (secName, piece)
    (st1.1 ++ pieces, [], 0)
  else
    let st2 := if maxc < st.2.2 + ln.length + 1 then flushChunk secName st else st
    let buf := st2.2.1 ++ [ln]
    let bufLen := st2.2.2 + ln.length + 1
    if decide (minc ≤ bufLen) &&
        (isPrefixB (cs "-") ln || isPrefixB (cs "•") ln || isPrefixB (cs "*") ln ||
         (ln.getLast? == some '.')) then
      flushChunk secName (st2.1, buf, bufLen)
    else (st2.1, buf, bufLen)

/-- The per-section body of `chunk_text` (lines 86-124): strip the
section's lines, run the buffered line loop, and flush the remainder. -/
def chunkSection (maxc minc : ℕ) (chunks0 : List (String × Chars))
    (secName : String) (secText : Chars) : List (String × Chars) :=
  let lines := (splitOnNl secText).map pyStrip
  let st := lines.foldl (chunkLineStep maxc minc secName) (chunks0, [], 0)
  (flushChunk secName st).1

/-- `grounded_extract.chunk_text(text, max_chars, min_chars)` (lines
59-135).  (When `max_chars = 0` and a longer line occurs Python raises
`ValueError` from `range`; this model returns no pieces there — the
branch is unreachable for the defaulted `max_chars = 700`.) -/
def chunkText (text : Chars) (maxc minc : ℕ) : List (String × Chars) :=
  let t := pyStrip text
  if t.isEmpty then []
  else
    let t := normNl t
    let parts := splitSections t
    let sections : List (String × Chars) :=
      if parts.length = 1 then [("document", t)]
      else parts.enum.filterMap fun p =>
        let q := pyStrip p.2
        if q.isEmpty then none else some ("section_" ++ toString (p.1 + 1), q)
    let chunks := sections.foldl
      (fun acc sec => chunkSection maxc minc acc sec.1 sec.2) []
    dedupChunks [] chunks

/-- One row of the `evidence_chunks` table
(schema_grounded_gap.py lines 22-41); `section` is a Lean keyword, so the
column is called `sectionLabel` here.  The three `*_json` columns hold
the serialized values; JSON encoding is left implicit (the code never
parses them back in the embedded paths, and `_safe_json` is injective on
these shapes). -/
structure EvidenceRow where
  resume_id : ℤ
  job_id : Option ℤ
  source_type : String
  source_name : String
  sectionLabel : String
  chunk_text : Chars
  tags_json : List String
  entities_json : EntitiesV
  signals_json : SignalsV
  confidence : ℚ
  content_hash : Chars
  deriving DecidableEq

/-- SQL equality on the nullable `job_id` column as used by a UNIQUE
index: two NULLs are distinct, so only two non-NULL equal values
conflict (documented SQLite behaviour). -/
def sqlJobEq : Option ℤ → Option ℤ → Bool
  | some a, some b => a == b
  | _, _ => false

/-- Conflict under
`UNIQUE(resume_id, job_id, source_type, source_name, content_hash)`. -/
def uniqueKeyConflict (a b : EvidenceRow) : Bool :=
  a.resume_id == b.resume_id && sqlJobEq a.job_id b.job_id &&
  a.source_type == b.source_type && a.source_name == b.source_name &&
  a.content_hash == b.content_hash

/-- Whether some row of `db` conflicts with `r` on the unique key. -/
def hasConflict (db : List EvidenceRow) (r : EvidenceRow) : Bool :=
  db.any (fun q => uniqueKeyConflict q r)

/-- `INSERT OR IGNORE INTO evidence_chunks …`: append the row unless some
existing row conflicts on the unique key. -/
def insertOrIgnore (db : List EvidenceRow) (r : EvidenceRow) : List EvidenceRow :=
  if hasConflict db r then db else db ++ [r]

/-- The row built and bound by one iteration of `upsert_evidence_chunks`
for a stripped non-empty chunk `ch` (grounded_extract.py lines 282-305);
the stored `content_hash` is `_hash_text(ch)` of the chunk text. -/
def mkEvidenceRow (resume_id : ℤ) (job_id : Option ℤ)
    (source_type source_name sectionLabel : String) (ch : Chars) : EvidenceRow :=
  let tesc := tagAndExtractSignals ch
  ⟨resume_id, job_id, source_type, source_name, sectionLabel, ch,
   tesc.1, tesc.2.1, tesc.2.2.1, tesc.2.2.2, hashText ch⟩

/-- `grounded_extract.upsert_evidence_chunks` (lines 266-307): strip each
chunk, skip empties, tag it, and insert-or-ignore the row; the stored
`content_hash` is `_hash_text(ch)` of the chunk text. -/
def upsertEvidenceChunks (db : List EvidenceRow) (resume_id : ℤ)
    (job_id : Option ℤ) (source_type source_name sectionLabel : String)
    (chunks : List Chars) : List EvidenceRow :=
  chunks.foldl (fun db ch0 =>
    let ch := pyStrip ch0
    if ch.isEmpty then db
    else
      insertOrIgnore db
        (mkEvidenceRow resume_id job_id source_type source_name sectionLabel ch)) db

/-- The ingestion path for one source text: chunk it (`chunk_text` with
its defaults 700/200) and upsert the chunk texts under one
(resume, job, source type, source name, section) key, exactly as
`build_evidence_cache_for_job` does (build_evidence_cache.py 14-38). -/
def ingestText (db : List EvidenceRow) (resume_id : ℤ) (job_id : Option ℤ)
    (source_type source_name sectionLabel : String) (text : Chars) :
    List EvidenceRow :=
  upsertEvidenceChunks db resume_id job_id source_type source_name
    sectionLabel ((chunkText text 700 200).map (fun p => p.2))

/-- `grounded_extract.EvidenceItem` (lines 38-48), as loaded by
`load_evidence_index`. -/
structure EvidenceItem where
  evidence_id : String
  source_type : String
  source_name : String
  sectionLabel : String
  chunk_text : Chars
  tags : List String
  entities : EntitiesV
  signals : SignalsV
  confidence : ℚ
  deriving DecidableEq

/-- The embedding client `semantic_match.try_embed_texts`, as an injected
oracle: `none` models "OpenAI import failed or the client raised". -/
abbrev EmbedOracle := List Chars → Option (List (List ℚ))

/-- The float cosine kernel `semantic_match._cosine`, as a parameter
(it divides by `math.sqrt`, irrational in general; see header). -/
abbrev CosFn := List ℚ → List ℚ → ℚ

/-- `semantic_match.semantic_similarity(query, candidates)` (lines
50-62): `none` when the client is unavailable or the returned embedding
count differs from `1 + len(candidates)`; otherwise the indexed cosine
similarities against the query embedding.  (The inner `[]` arm is
unreachable under the length guard.) -/
def semanticSimilarity (cosFn : CosFn) (oracle : EmbedOracle)
    (query : Chars) (candidates : List Chars) : Option (List (ℕ × ℚ)) :=
  match oracle (query :: candidates) with
  | none => none
  | some embs =>
    if embs.length = 1 + candidates.length then
      match embs with
      | [] => none
      | q :: rest => some (rest.mapIdx fun i e => (i, cosFn q e))
    else none

/-- Python `f"{x:.2f}"` on the exact rational model (used only on
nonnegative scores): two decimals, tie to even. -/
def q2str (q : ℚ) : String :=
  let n := pyRound (q * 100)
  toString (n / 100) ++ "." ++ (if n % 100 < 10 then "0" else "") ++ toString (n % 100)

/-- Python `repr` of a string: surround with single quotes (the tag names
contain no escapes). -/
def pyStrRepr (s : String) : String :=
  String.mk (Char.ofNat 39 :: (s.data ++ [Char.ofNat 39]))

/-- Python `str` of a list of strings, e.g. `['a', 'b']`. -/
def pyListRepr (l : List String) : String :=
  "[" ++ String.intercalate ", " (l.map pyStrRepr) ++ "]"

/-- The per-chunk body of the scoring loop of
`_best_evidence_for_requirement` (grounded_gap_engine.py lines 52-78):
token Jaccard + tag bonus + confidence bonus, clamped to [0, 1.25];
candidates with score ≤ 0.05 are discarded; rationale as in the source.
Python's set intersection is modelled by deduplicated lists. -/
def scoreEvidence (req_tokens : List Chars) (req_tag_set : List String)
    (e : EvidenceItem) : Option (EvidenceItem × ℚ × String) :=
  let ev_tokens := tokenize e.chunk_text
  let tok_sim := jaccard req_tokens ev_tokens
  let ev_tag_set := e.tags.dedup
  let tag_overlap := req_tag_set.filter (fun tg => ev_tag_set.contains tg)
  let tag_bonus : ℚ :=
    if tag_overlap.isEmpty then 0
    else 0.20 + min 0.20 (0.05 * (tag_overlap.length : ℚ))
  let conf_bonus := 0.10 * e.confidence
  let score := max 0 (min 1.25 (tok_sim + tag_bonus + conf_bonus))
  if score ≤ 0.05 then none
  else
    let rparts :=
      (if tok_sim ≥ 0.10 then ["token_overlap=" ++ q2str tok_sim] else []) ++
      (if !tag_overlap.isEmpty then ["tags=" ++ pyListRepr (sortStrsAsc tag_overlap)] else []) ++
      (if e.confidence ≥ 0.6 then ["strong_signal"] else [])
    some (e, score,
      if rparts.isEmpty then "weak_match" else String.intercalate "; " rparts)

/-- Stable descending insertion by score: a new element goes after all
existing elements of greater-or-equal score, mirroring the stability of
Python `list.sort(key=…, reverse=True)`. -/
def insertDescByScore (x : EvidenceItem × ℚ × String) :
    List (EvidenceItem × ℚ × String) → List (EvidenceItem × ℚ × String)
  | [] => [x]
  | y :: ys => if y.2.1 < x.2.1 then x :: y :: ys else y :: insertDescByScore x ys

/-- Stable descending sort by score (Python `sort(key=…, reverse=True)`). -/
def sortDescByScore (l : List (EvidenceItem × ℚ × String)) :
    List (EvidenceItem × ℚ × String) :=
  l.foldl (fun acc x => insertDescByScore x acc) []

/-- The deterministic ranking of `_best_evidence_for_requirement` (lines
47-80): score every chunk against the requirement's tokens and the tag
set `set(req_tags + [competency] if competency else [])`, then
stable-sort descending by score. -/
def lexicalRanking (req_text : Chars) (req_competency : String)
    (evidence : List EvidenceItem) : List (EvidenceItem × ℚ × String) :=
  let req_tokens := tokenize req_text
  let req_tags := (tagAndExtractSignals req_text).1
  let req_tag_set :=
    (req_tags ++ (if req_competency = "" then [] else [req_competency])).dedup
  sortDescByScore (evidence.filterMap (scoreEvidence req_tokens req_tag_set))

/-- `grounded_gap_engine._best_evidence_for_requirement` (lines 36-104):
lexical ranking, optional semantic re-rank of the top 30 via
`semantic_similarity` (blend `min(1.25, base + 0.35·clamp(sim,0,1))`,
re-sort blended head + untouched tail, then re-sort the whole), top-k.
The `sim_by_idx` dict lookup is last-wins on duplicate indices. -/
def bestEvidenceForRequirement (cosFn : CosFn) (oracle : EmbedOracle)
    (semEnabled : Bool) (req_text : Chars) (req_competency : String)
    (evidence : List EvidenceItem) (top_k : ℕ) :
    List (EvidenceItem × ℚ × String) :=
  let scored := lexicalRanking req_text req_competency evidence
  if semEnabled && !scored.isEmpty then
    let N := min 30 scored.length
    let candidates := (scored.take N).map (fun x => x.1.chunk_text)
    match semanticSimilarity cosFn oracle req_text candidates with
    | none => scored.take top_k
    | some sims =>
      let blended := (scored.take N).mapIdx fun i x =>
        let sem : ℚ :=
          max 0 (min 1 (((sims.reverse.find? (fun p => p.1 == i)).map
            (fun p => p.2)).getD 0))
        (x.1, min 1.25 (x.2.1 + 0.35 * sem), x.2.2 ++ "; semantic=" ++ q2str sem)
      let tail := scored.drop N
      (sortDescByScore (sortDescByScore blended ++ tail)).take top_k
  else scored.take top_k

/-- One extracted requirement (`extract_requirements_deterministic`,
grounded_extract.py lines 251-260). -/
structure Req where
  requirement_id : String
  category : String
  competency : String
  text : Chars
  weight : ℤ
  must_have : Bool
  deriving DecidableEq

/-- Python `f"REQ-{n:03d}"`. -/
def reqIdStr (n : ℕ) : String :=
  "REQ-" ++ (if n < 10 then "00" else if n < 100 then "0" else "") ++ toString n

/-- One iteration of the mode-tracking line scanner of
`extract_requirements_deterministic` (grounded_extract.py lines 227-261):
heading keywords switch the mode and are discarded; bullet lines become
requirements, numbered sequentially. -/
def extractLineStep (st : String × ℕ × List Req) (ln : Chars) :
    String × ℕ × List Req :=
  let l := lowerChars ln
  if isInfixB (cs "responsibilit") l then ("responsibility", st.2.1, st.2.2)
  else if isInfixB (cs "qualif") l then ("qualification", st.2.1, st.2.2)
  else if isInfixB (cs "preferred") l then ("preferred", st.2.1, st.2.2)
  else if isPrefixB (cs "●") ln || isPrefixB (cs "-") ln ||
      isPrefixB (cs "•") ln || isPrefixB (cs "*") ln then
    let text := pyStrip (ln.dropWhile
      (fun c => c == '●' || c == '-' || c == '•' || c == '*' || c == ' '))
    if text.isEmpty then st
    else
      let must_have := st.1 == "qualification" || st.1 == "responsibility"
      let weight : ℤ :=
        if st.1 == "qualification" || st.1 == "responsibility" then 3 else 1
      let competency := ((tagAndExtractSignals text).1).headD "general"
      (st.1, st.2.1 + 1, st.2.2 ++
        [⟨reqIdStr st.2.1, if must_have then "required" else "preferred",
          competency, text, weight, must_have⟩])
  else st

/-- `grounded_extract.extract_requirements_deterministic(job_desc)`
(lines 212-263). -/
def extractRequirementsDeterministic (job_desc : Chars) : List Req :=
  let jd := pyStrip job_desc
  if jd.isEmpty then []
  else
    let lines := ((splitOnNl (normNl jd)).map pyStrip).filter (fun l => !l.isEmpty)
    (lines.foldl extractLineStep ("general", 1, [])).2.2

/-- One evidence citation inside a requirement result
(grounded_gap_engine.py lines 174-185). -/
structure EvCitation where
  evidence_id : String
  source_type : String
  source_name : String
  sectionLabel : String
  quote : Chars
  match_strength : ℚ
  rationale : String
  deriving DecidableEq

/-- One per-requirement result dict of `run_grounded_gap_analysis`
(grounded_gap_engine.py lines 199-215). -/
structure ReqResult where
  requirement_id : String
  category : String
  competency : String
  text : Chars
  weight : ℤ
  must_have : Bool
  classification : String
  match_strength : ℚ
  match_strength_pct : ℤ
  evidence : List EvCitation
  missing_signals : List String
  followup_question : String
  confidence : ℚ
  deriving DecidableEq

/-- The result dict of `run_grounded_gap_analysis`
(grounded_gap_engine.py lines 238-247). -/
structure GapResult where
  overall_alignment_score : ℤ
  summary : String
  requirements_total : ℕ
  matched_requirements : List ReqResult
  partial_gaps : List ReqResult
  hard_gaps : List ReqResult
  signal_gaps : List ReqResult
  all_results : List ReqResult
  deriving DecidableEq

/-- The summary f-string shared by `run_grounded_gap_analysis` (lines
232-236) and `rebucket_gap_result` (objective_requirements.py 82-86). -/
def summaryStr (overall : ℤ) (nm np ng ns : ℕ) : String :=
  "Overall grounded alignment: " ++ toString overall ++ "/100. " ++
  "Matches: " ++ toString nm ++ ", Partial: " ++ toString np ++
  ", Gaps: " ++ toString ng ++ ", Signal gaps: " ++ toString ns ++ "."

/-- The follow-up-question f-string (grounded_gap_engine.py 194-197). -/
def followupFor (req_text : Chars) : String :=
  "Provide a specific example demonstrating " ++ pyStrRepr (String.mk req_text) ++
  ". Include scope (team/budget), stakeholders, and measurable outcomes."

/-- The per-requirement result dict built by one iteration of the
requirement loop of `run_grounded_gap_analysis` (grounded_gap_engine.py
lines 140-215).  Note the Python `or` defaults: an empty competency
becomes `"general"` and a zero weight becomes 1. -/
def reqResultOf (cosFn : CosFn) (oracle : EmbedOracle) (semEnabled : Bool)
    (evidence : List EvidenceItem) (req : Req) : ReqResult :=
  let req_text := pyStrip req.text
  let competency := if req.competency = "" then "general" else req.competency
  let must_have := req.must_have
  let weight : ℤ := if req.weight = 0 then 1 else req.weight
  let best := bestEvidenceForRequirement cosFn oracle semEnabled req_text
    competency evidence 3
  let best_score : ℚ := match best.head? with | some x => x.2.1 | none => 0
  let classification := classify best_score must_have
  let ev_list : List EvCitation := best.map fun x =>
    ⟨x.1.evidence_id, x.1.source_type, x.1.source_name, x.1.sectionLabel,
     x.1.chunk_text.take 600, x.2.1, x.2.2⟩
  let missing_signals :=
    if classification = "gap" || classification = "signal_gap" then [competency] else []
  let followup_question :=
    if classification = "partial" || classification = "gap" ||
        classification = "signal_gap" then followupFor req_text else ""
  ⟨req.requirement_id, req.category, competency, req_text, weight, must_have,
   classification, best_score, toPct best_score, ev_list, missing_signals,
   followup_question, min 1 (0.35 + 0.5 * best_score)⟩

/-- The `contrib` per-classification scalar of the requirement loop
(grounded_gap_engine.py lines 160-168). -/
def codeContrib (classification : String) : ℚ :=
  if classification = "match" then 1
  else if classification = "partial" then 0.5
  else if classification = "gap" then -0.25
  else 0

/-- One iteration of the requirement loop of `run_grounded_gap_analysis`
(grounded_gap_engine.py lines 140-215) on the state
`(results, total_weight, score_accum)`: requirements with empty stripped
text are skipped; otherwise the built result is appended and the weight
and weighted contribution are accumulated. -/
def runReqStep (cosFn : CosFn) (oracle : EmbedOracle) (semEnabled : Bool)
    (evidence : List EvidenceItem)
    (st : List ReqResult × ℤ × ℚ) (req : Req) : List ReqResult × ℤ × ℚ :=
  let req_text := pyStrip req.text
  if req_text.isEmpty then st
  else
    let rr := reqResultOf cosFn oracle semEnabled evidence req
    (st.1 ++ [rr], st.2.1 + rr.weight, st.2.2 + codeContrib rr.classification * rr.weight)

/-- The body of `run_grounded_gap_analysis` after requirement extraction
(grounded_gap_engine.py lines 136-247).  The bucket loop
`buckets.get(cls, buckets["signal_gap"]).append(r)` is rendered by the
equivalent order-preserving filters ("not one of the other three" lands
in `signal_gaps`). -/
def runGapCore (cosFn : CosFn) (oracle : EmbedOracle) (semEnabled : Bool)
    (requirements : List Req) (evidence : List EvidenceItem) : GapResult :=
  let st := requirements.foldl (runReqStep cosFn oracle semEnabled evidence) ([], 0, 0)
  let results := st.1
  let total_weight := st.2.1
  let score_accum := st.2.2
  let overall : ℤ :=
    if total_weight ≤ 0 then 0
    else max 0 (min 100 (pyRound ((score_accum / (total_weight : ℚ) + 0.25) / 1.25 * 100)))
  let bMatch := results.filter (fun r => r.classification == "match")
  let bPartial := results.filter (fun r => r.classification == "partial")
  let bGap := results.filter (fun r => r.classification == "gap")
  let bSignal := results.filter (fun r =>
    !(r.classification == "match" || r.classification == "partial" ||
      r.classification == "gap"))
  ⟨overall,
   summaryStr overall bMatch.length bPartial.length bGap.length bSignal.length,
   results.length, bMatch, bPartial, bGap, bSignal, results⟩

/-- `grounded_gap_engine.run_grounded_gap_analysis` (lines 120-247) as a
pure function: the sqlite connection and `load_evidence_index` call are
replaced by the loaded `evidence` list, and the semantic collaborator by
its oracle parameters (see header). -/
def runGroundedGapAnalysis (cosFn : CosFn) (oracle : EmbedOracle)
    (semEnabled : Bool) (job_description : Chars)
    (evidence : List EvidenceItem) : GapResult :=
  runGapCore cosFn oracle semEnabled
    (extractRequirementsDeterministic job_description) evidence

/-- `objective_requirements.DEGREE_REGEX` alternative `bachelor` at
position `i` of the lowered text: word boundaries on both sides. -/
def degreeAltBachelor (low : Chars) (i : ℕ) : Bool :=
  boundaryAt low i && isPrefixB (cs "bachelor") (low.drop i) && boundaryAt low (i + 8)

/-- `DEGREE_REGEX` alternatives `b\.?s\.?` / `b\.?a\.?` (second letter
`c2`) at position `i`: the optional dots give four expansions, each
requiring a final word boundary after its last character; for a boolean
search the greedy order is irrelevant, so they are a disjunction. -/
def degreeAltAbbrev (c2 : Char) (low : Chars) (i : ℕ) : Bool :=
  boundaryAt low i && (low.getD i ' ' == 'b') &&
  (((low.getD (i+1) ' ' == c2) &&
      (((low.getD (i+2) ' ' == '.') && boundaryAt low (i+3)) ||
        boundaryAt low (i+2))) ||
   ((low.getD (i+1) ' ' == '.') && (low.getD (i+2) ' ' == c2) &&
      (((low.getD (i+3) ' ' == '.') && boundaryAt low (i+4)) ||
        boundaryAt low (i+3))))

/-- `re.search(DEGREE_REGEX, txt)` as a boolean:
`\b(bachelor|b\.?s\.?|b\.?a\.?)\b`, case-insensitive
(objective_requirements.py line 7). -/
def degreeSearch (txt : Chars) : Bool :=
  let low := lowerChars txt
  (List.range (low.length + 1)).any fun i =>
    degreeAltBachelor low i || degreeAltAbbrev 's' low i || degreeAltAbbrev 'a' low i

/-- `objective_requirements.infer_has_bachelors(resume_text)`
(lines 11-13). -/
def inferHasBachelors (resume_text : Chars) : Bool :=
  degreeSearch resume_text &&
  (isInfixB (cs "university") (lowerChars resume_text) ||
   isInfixB (cs "college") (lowerChars resume_text))

/-- `objective_requirements.YEAR_REGEX` = `\b(19[7-9]\d|20[0-2]\d)\b`
(line 8) at one position.  Both word boundaries force an isolated 4-digit
run, so matches can never overlap and `findall` is the position scan. -/
def yearMatchAt (t : Chars) (i : ℕ) : Option (ℕ × ℤ) :=
  let s := t.drop i
  let d0 := s.getD 0 ' '
  let d1 := s.getD 1 ' '
  let d2 := s.getD 2 ' '
  let d3 := s.getD 3 ' '
  let ok19 := d0 == '1' && d1 == '9' && (d2 == '7' || d2 == '8' || d2 == '9') && d3.isDigit
  let ok20 := d0 == '2' && d1 == '0' && (d2 == '0' || d2 == '1' || d2 == '2') && d3.isDigit
  if boundaryAt t i && (ok19 || ok20) && boundaryAt t (i + 4) then
    some (4, (digitsToNat (s.take 4) : ℤ))
  else none

/-- `objective_requirements.infer_years_experience(resume_text)`
(lines 16-21): `max(years) - min(years)` over all `YEAR_REGEX` matches,
`None` when fewer than two matches (duplicates count). -/
def inferYearsExperience (resume_text : Chars) : Option ℤ :=
  let years := scanAll (yearMatchAt resume_text) (resume_text.length + 1) 0
  match years with
  | [] => none
  | [_] => none
  | y :: ys => some ((ys.foldl max y) - (ys.foldl min y))

/-- One audit record of `apply_objective_overrides`
(objective_requirements.py lines 51-53 and 61-63). -/
structure AuditEntry where
  requirement_id : String
  reason : String
  new_classification : String
  deriving DecidableEq

/-- The per-entry body of the loop of `apply_objective_overrides`
(objective_requirements.py lines 43-63): the degree rule, then the years
rule on the (possibly already updated) entry, each producing its audit
records in order. -/
def overrideEntry (has_deg : Bool) (yrs : Option ℤ)
    (degree_req_ids years_req_ids : List String) (years_threshold : ℤ)
    (r : ReqResult) : ReqResult × List AuditEntry :=
  let s1 :=
    if degree_req_ids.contains r.requirement_id && has_deg &&
        !(r.classification == "match") then
      ({ r with
          classification := "match",
          match_strength := max r.match_strength 0.85,
          match_strength_pct := max r.match_strength_pct 85,
          confidence := max r.confidence 0.75 },
       [(⟨r.requirement_id, "degree_detected", "match"⟩ : AuditEntry)])
    else (r, [])
  let r1 := s1.1
  let s2 :=
    match yrs with
    | some y =>
      if years_req_ids.contains r1.requirement_id && y ≥ years_threshold &&
          !(r1.classification == "match") then
        ({ r1 with
            classification := "match",
            match_strength := max r1.match_strength 0.85,
            match_strength_pct := max r1.match_strength_pct 85,
            confidence := max r1.confidence 0.70 },
         [(⟨r1.requirement_id, "years_detected(" ++ toString y ++ ")", "match"⟩ : AuditEntry)])
      else (r1, [])
    | none => (r1, [])
  (s2.1, s1.2 ++ s2.2)

/-- `objective_requirements.apply_objective_overrides` (lines 24-65) as a
pure function: returns the updated result and the `audit["overrides"]`
list.  Python mutates the dicts of `all_results` in place, so the bucket
lists alias the updated entries until `rebucket_gap_result` recomputes
them; the model keeps the stale bucket values, which no embedded claim
reads between the two passes. -/
def applyObjectiveOverrides (gap_result : GapResult) (resume_text : Chars)
    (degree_req_ids years_req_ids : List String) (years_threshold : ℤ) :
    GapResult × List AuditEntry :=
  let has_deg := inferHasBachelors resume_text
  let yrs := inferYearsExperience resume_text
  let outs := gap_result.all_results.map
    (overrideEntry has_deg yrs degree_req_ids years_req_ids years_threshold)
  ({ gap_result with all_results := outs.map (fun p => p.1) },
   (outs.map (fun p => p.2)).join)

/-- `objective_requirements.rebucket_gap_result` (lines 68-87): recompute
the four buckets from `all_results` (same partition as the orchestrator)
and rebuild the summary from the stored overall score. -/
def rebucketGapResult (gap_result : GapResult) : GapResult :=
  let all_results := gap_result.all_results
  let bMatch := all_results.filter (fun r => r.classification == "match")
  let bPartial := all_results.filter (fun r => r.classification == "partial")
  let bGap := all_results.filter (fun r => r.classification == "gap")
  let bSignal := all_results.filter (fun r =>
    !(r.classification == "match" || r.classification == "partial" ||
      r.classification == "gap"))
  { gap_result with
      matched_requirements := bMatch,
      partial_gaps := bPartial,
      hard_gaps := bGap,
      signal_gaps := bSignal,
      summary := summaryStr gap_result.overall_alignment_score
        bMatch.length bPartial.length bGap.length bSignal.length }

/-- The requirement text of the spec's end-to-end example. -/
def c4ReqText : Chars := cs "Lead crisis communications for a public healthcare company"

/-- The evidence chunk of the spec's end-to-end example, with the tags
and confidence the claim assigns to it. -/
def c4Evidence : EvidenceItem :=
  ⟨"E-000001", "resume", "resume", "resume",
   cs "Led crisis response team of 12 during FDA inquiry, protected $50M brand value",
   ["crisis_issues", "regulated_healthcare"], ⟨[]⟩,
   ⟨none, none, none, false, false, false⟩, 0.7⟩

/-- C4 (counterexample): on the spec's end-to-end example — requirement
"Lead crisis communications for a public healthcare company" (lexicon
tags crisis_issues, regulated_healthcare; competency crisis_issues)
against the single evidence chunk "Led crisis response team of 12 during
FDA inquiry, protected $50M brand value" with tags
{crisis_issues, regulated_healthcare} and confidence 0.7 — the
deterministic matcher yields the top score 729/1700 ≈ 0.429
(token Jaccard 1/17 + tag bonus 0.30 + confidence bonus 0.07), which is
NOT strictly above 0.65, and the classification is "partial", not
"match", for either value of must_have. -/
theorem c4_counterexample :
    (bestEvidenceForRequirement (fun _ _ => 0) (fun _ => none) false
        c4ReqText "crisis_issues" [c4Evidence] 3).map (fun x => x.2.1)
      = [729/1700] ∧
    ¬ ((729 : ℚ)/1700 > 0.65) ∧
    classify (729/1700) true = "partial" ∧
    classify (729/1700) false = "partial" ∧
    rawTags c4ReqText = ["crisis_issues", "regulated_healthcare"] := by
  refine ⟨?_, by norm_num, ?_, ?_, ?_⟩ <;> with_unfolding_all decide

/-- C4 (amended): the end-to-end example yields top score 729/1700
(≈ 0.429: tag_bonus 0.30 + conf_bonus 0.07 + token Jaccard 1/17), below
the 0.65 threshold, and classification "partial"; this holds for every
embedding oracle and cosine kernel since the semantic re-rank is
disabled. -/
theorem c4_amended (cosFn : CosFn) (oracle : EmbedOracle) :
    bestEvidenceForRequirement cosFn oracle false
        c4ReqText "crisis_issues" [c4Evidence] 3
      = [(c4Evidence, 729/1700,
          "tags=" ++ pyListRepr ["crisis_issues", "regulated_healthcare"] ++
          "; strong_signal")] ∧
    (729 : ℚ)/1700 < 0.65 ∧
    classify (729/1700) true = "partial" ∧
    classify (729/1700) false = "partial" := by
  have hb : bestEvidenceForRequirement cosFn oracle false
      c4ReqText "crisis_issues" [c4Evidence] 3
      = (lexicalRanking c4ReqText "crisis_issues" [c4Evidence]).take 3 := by
    unfold bestEvidenceForRequirement
    simp
  refine ⟨?_, by norm_num, ?_, ?_⟩
  · rw [hb]
    with_unfolding_all decide
  all_goals with_unfolding_all decide

theorem dropWhile_eq_self_of_none {p : Char → Bool} {l : Chars}
    (h : ∀ c ∈ l, p c = false) : l.dropWhile p = l := by
  cases l with
  | nil => rfl
  | cons c rest =>
    have hc := h c (List.mem_cons_self c rest)
    simp [List.dropWhile, hc]

theorem pyStrip_eq_self {l : Chars} (h : ∀ c ∈ l, isSpacePy c = false) :
    pyStrip l = l := by
  unfold pyStrip
  rw [dropWhile_eq_self_of_none h, dropWhile_eq_self_of_none, List.reverse_reverse]
  intro c hc
  exact h c (List.mem_reverse.mp hc)

theorem normNl_eq_self {l : Chars} (h : '\r' ∉ l) : normNl l = l := by
  induction l with
  | nil => rfl
  | cons c rest ih =>
    have hc : c ≠ '\r' := fun e => h (by simp [e])
    have hr : '\r' ∉ rest := fun m => h (List.mem_cons_of_mem c m)
    rw [normNl.eq_def]
    split <;> simp_all

theorem splitOnNl_eq_self {l : Chars} (h : '\n' ∉ l) : splitOnNl l = [l] := by
  induction l with
  | nil => rfl
  | cons c rest ih =>
    have hc : c ≠ '\n' := fun e => h (by simp [e])
    have hr : '\n' ∉ rest := fun m => h (List.mem_cons_of_mem c m)
    simp [splitOnNl, ih hr, hc]

theorem sectionMatchLen_eq_none {c : Char} {rest : Chars} (h : c ≠ '\n') :
    sectionMatchLen (c :: rest) = none := by
  rw [sectionMatchLen.eq_def]
  split <;> simp_all

theorem splitSectionsAux_no_nl {l : Chars} (h : '\n' ∉ l) :
    ∀ acc, splitSectionsAux acc l = [acc.reverse ++ l] := by
  induction l with
  | nil => intro acc; simp [splitSectionsAux]
  | cons c rest ih =>
    intro acc
    have hc : c ≠ '\n' := fun e => h (by simp [e])
    have hr : '\n' ∉ rest := fun m => h (List.mem_cons_of_mem c m)
    rw [splitSectionsAux, sectionMatchLen_eq_none hc, ih hr]
    simp

theorem splitSections_no_nl {l : Chars} (h : '\n' ∉ l) :
    splitSections l = [l] := by
  unfold splitSections
  rw [splitSectionsAux_no_nl h]
  rfl

theorem dedupChunks_three {s : String} {p0 p1 p2 : Chars}
    (h01 : p0 ≠ p1) (h02 : p0 ≠ p2) (h12 : p1 ≠ p2) :
    dedupChunks [] [(s, p0), (s, p1), (s, p2)] = [(s, p0), (s, p1), (s, p2)] := by
  have k10 : (cs s ++ '\n' :: p1) ≠ (cs s ++ '\n' :: p0) := by
    intro e
    exact h01 (by simpa using (List.append_cancel_left e).symm)
  have k20 : (cs s ++ '\n' :: p2) ≠ (cs s ++ '\n' :: p0) := by
    intro e
    exact h02 (by simpa using (List.append_cancel_left e).symm)
  have k21 : (cs s ++ '\n' :: p2) ≠ (cs s ++ '\n' :: p1) := by
    intro e
    exact h12 (by simpa using (List.append_cancel_left e).symm)
  simp [dedupChunks, hashText, k10, k20, k21]

/-- On a single line of 1500 non-whitespace characters, `chunk_text`
with `max_chars = 700` hard-slices the line into the three pieces
`[0:700]`, `[700:1400]`, `[1400:1500]` and then applies the
exact-duplicate filter to them. -/
theorem chunkText_line1500 (t : Chars) (minc : ℕ)
    (hlen : t.length = 1500)
    (hsp : ∀ c ∈ t, isSpacePy c = false) :
    chunkText t 700 minc
      = dedupChunks [] [("document", (t.drop 0).take 700),
          ("document", (t.drop 700).take 700),
          ("document", (t.drop 1400).take 700)] := by
  have hnl : '\n' ∉ t := fun m => absurd (hsp _ m) (by decide)
  have hcr : '\r' ∉ t := fun m => absurd (hsp _ m) (by decide)
  have hts : pyStrip t = t := pyStrip_eq_self hsp
  have htne : t ≠ [] := by intro e; rw [e] at hlen; simp at hlen
  have hie : t.isEmpty = false := by
    cases t with
    | nil => exact absurd rfl htne
    | cons c r => rfl
  have hnn : normNl t = t := normNl_eq_self hcr
  have hss : splitSections t = [t] := splitSections_no_nl hnl
  have hsub : ∀ a b : ℕ, ∀ c ∈ (t.drop a).take b, isSpacePy c = false :=
    fun a b c hc => hsp c (List.drop_subset a t (List.take_subset b _ hc))
  have hp0 : pyStrip ((t.drop 0).take 700) = (t.drop 0).take 700 :=
    pyStrip_eq_self (hsub 0 700)
  have hp1 : pyStrip ((t.drop 700).take 700) = (t.drop 700).take 700 :=
    pyStrip_eq_self (hsub 700 700)
  have hp2 : pyStrip ((t.drop 1400).take 700) = (t.drop 1400).take 700 :=
    pyStrip_eq_self (hsub 1400 700)
  have hne' : ∀ u : Chars, u.length ≠ 0 → u.isEmpty = false := by
    intro u hu
    cases u with
    | nil => exact absurd rfl hu
    | cons c r => rfl
  have hl0 : ((t.drop 0).take 700).length = 700 := by
    simp [List.length_take, List.length_drop, hlen]
  have hl1 : ((t.drop 700).take 700).length = 700 := by
    simp [List.length_take, List.length_drop, hlen]
  have hl2 : ((t.drop 1400).take 700).length = 100 := by
    simp [List.length_take, List.length_drop, hlen]
  have hie0 : ((t.drop 0).take 700).isEmpty = false :=
    hne' _ (by rw [hl0]; norm_num)
  have hie1 : ((t.drop 700).take 700).isEmpty = false :=
    hne' _ (by rw [hl1]; norm_num)
  have hie2 : ((t.drop 1400).take 700).isEmpty = false :=
    hne' _ (by rw [hl2]; norm_num)
  have hpieces : ((List.range ((1500 + 700 - 1) / 700)).filterMap fun k =>
        let piece := pyStrip ((t.drop (k * 700)).take 700)
        if piece.isEmpty then none else some ("document", piece))
      = [("document", (t.drop 0).take 700),
         ("document", (t.drop 700).take 700),
         ("document", (t.drop 1400).take 700)] := by
    have hr : List.range ((1500 + 700 - 1) / 700) = [0, 1, 2] := rfl
    rw [hr]
    simp only [List.filterMap_cons, List.filterMap_nil, Nat.zero_mul,
      Nat.one_mul, Nat.reduceMul, hp0, hp1, hp2, hie0, hie1, hie2,
      Bool.false_eq_true, if_false]
  unfold chunkText
  rw [hts]
  simp only [hie, Bool.false_eq_true, if_false, hnn, hss, List.length_cons,
    List.length_nil, Nat.reduceAdd, reduceIte, List.foldl_cons, List.foldl_nil]
  unfold chunkSection
  rw [splitOnNl_eq_self hnl]
  simp only [List.map_cons, List.map_nil, hts, List.foldl_cons, List.foldl_nil]
  unfold chunkLineStep
  simp only [hie, Bool.false_eq_true, if_false, hlen]
  rw [if_pos (by norm_num : (700 : ℕ) < 1500)]
  rw [hpieces]
  simp only [flushChunk, List.isEmpty_nil, if_true, List.nil_append]

/-- The duplicate filter on three chunks of one section where the first
two coincide and the third differs keeps only two chunks. -/
theorem dedupChunks_dup {s : String} {p q : Chars} (hpq : p ≠ q) :
    dedupChunks [] [(s, p), (s, p), (s, q)] = [(s, p), (s, q)] := by
  have k : (cs s ++ '\n' :: q) ≠ (cs s ++ '\n' :: p) := by
    intro e
    exact hpq (by simpa using (List.append_cancel_left e).symm)
  simp [dedupChunks, hashText, k]

/-- C9 (counterexample): on the single line of 1500 identical characters
(`"a" * 1500`, no newlines) with `max_chars = 700`, `chunk_text` yields
only TWO chunks, of lengths 700 and 100: the second 700-character slice
equals the first, shares its content hash, and is dropped by the
exact-duplicate filter. -/
theorem c9_counterexample :
    (chunkText (List.replicate 1500 'a') 700 200).map (fun p => p.2.length)
      = [700, 100] ∧
    (List.replicate 1500 'a' : Chars).length = 1500 ∧
    '\n' ∉ (List.replicate 1500 'a' : Chars) := by
  have hsp : ∀ c ∈ (List.replicate 1500 'a' : Chars), isSpacePy c = false := by
    intro c hc
    rw [List.eq_of_mem_replicate hc]
    decide
  have hnl : '\n' ∉ (List.replicate 1500 'a' : Chars) := by
    rw [List.mem_replicate]
    intro h
    exact absurd h.2 (by decide)
  refine ⟨?_, by simp, hnl⟩
  rw [chunkText_line1500 (List.replicate 1500 'a') 200 (by simp) hsp]
  have e0 : ((List.replicate 1500 'a' : Chars).drop 0).take 700
      = List.replicate 700 'a' := by
    simp [List.take_replicate]
  have e1 : ((List.replicate 1500 'a' : Chars).drop 700).take 700
      = List.replicate 700 'a' := by
    simp [List.drop_replicate, List.take_replicate]
  have e2 : ((List.replicate 1500 'a' : Chars).drop 1400).take 700
      = List.replicate 100 'a' := by
    simp [List.drop_replicate, List.take_replicate]
  rw [e0, e1, e2]
  rw [dedupChunks_dup (by
    intro e
    have := congrArg List.length e
    simp at this)]
  simp

/-- C9 (amended): `chunk_text` on a single line of 1500 non-whitespace
characters whose first and second 700-character slices differ, with
`max_chars = 700` (and any `min_chars`), yields exactly 3 chunks of
lengths 700, 700, 100. -/
theorem c9_amended (t : Chars) (minc : ℕ)
    (hlen : t.length = 1500)
    (hsp : ∀ c ∈ t, isSpacePy c = false)
    (hne : t.take 700 ≠ (t.drop 700).take 700) :
    (chunkText t 700 minc).map (fun p => p.2.length) = [700, 700, 100] := by
  have hl0 : ((t.drop 0).take 700).length = 700 := by
    simp [List.length_take, List.length_drop, hlen]
  have hl1 : ((t.drop 700).take 700).length = 700 := by
    simp [List.length_take, List.length_drop, hlen]
  have hl2 : ((t.drop 1400).take 700).length = 100 := by
    simp [List.length_take, List.length_drop, hlen]
  rw [chunkText_line1500 t minc hlen hsp]
  have hne02 : (t.drop 0).take 700 ≠ (t.drop 1400).take 700 := by
    intro e
    have := congrArg List.length e
    rw [hl0, hl2] at this
    exact absurd this (by norm_num)
  have hne12 : (t.drop 700).take 700 ≠ (t.drop 1400).take 700 := by
    intro e
    have := congrArg List.length e
    rw [hl1, hl2] at this
    exact absurd this (by norm_num)
  have hne01 : (t.drop 0).take 700 ≠ (t.drop 700).take 700 := by
    rw [List.drop_zero]
    exact hne
  rw [dedupChunks_three hne01 hne02 hne12]
  simp only [List.map_cons, List.map_nil, hl0, hl1, hl2]

/-- Witness for `c9_amended` at the concrete line `"a"*750 ++ "b"*750`. -/
theorem c9_amended_witness :
    ((List.replicate 750 'a' ++ List.replicate 750 'b' : Chars).length = 1500 ∧
     (∀ c ∈ (List.replicate 750 'a' ++ List.replicate 750 'b' : Chars),
        isSpacePy c = false) ∧
     (List.replicate 750 'a' ++ List.replicate 750 'b' : Chars).take 700 ≠
       ((List.replicate 750 'a' ++ List.replicate 750 'b' : Chars).drop 700).take 700) ∧
    (chunkText (List.replicate 750 'a' ++ List.replicate 750 'b') 700 200).map
        (fun p => p.2.length) = [700, 700, 100] := by
  have hlen : (List.replicate 750 'a' ++ List.replicate 750 'b' : Chars).length = 1500 := by
    simp
  have hsp : ∀ c ∈ (List.replicate 750 'a' ++ List.replicate 750 'b' : Chars),
      isSpacePy c = false := by
    intro c hc
    rcases List.mem_append.mp hc with h | h <;> rw [List.eq_of_mem_replicate h] <;> decide
  have hne : (List.replicate 750 'a' ++ List.replicate 750 'b' : Chars).take 700
      ≠ ((List.replicate 750 'a' ++ List.replicate 750 'b' : Chars).drop 700).take 700 := by
    intro e
    have hc := congrArg (List.count 'b') e
    simp only [List.take_append_eq_append_take, List.drop_append_eq_append_drop,
      List.take_replicate, List.drop_replicate, List.length_replicate,
      List.count_append, List.count_replicate,
      show (('a' : Char) == 'b') = false from by decide, beq_self_eq_true,
      Bool.false_eq_true, if_false, if_true] at hc
    exact absurd hc (by decide)
  exact ⟨⟨hlen, hsp, hne⟩, c9_amended _ 200 hlen hsp hne⟩

theorem upsert_nil (db : List EvidenceRow) (rid : ℤ) (jid : Option ℤ)
    (st sn sec : String) :
    upsertEvidenceChunks db rid jid st sn sec [] = db := rfl

theorem upsert_cons (db : List EvidenceRow) (rid : ℤ) (jid : Option ℤ)
    (st sn sec : String) (a : Chars) (rest : List Chars) :
    upsertEvidenceChunks db rid jid st sn sec (a :: rest)
      = upsertEvidenceChunks
          (if (pyStrip a).isEmpty then db
           else insertOrIgnore db (mkEvidenceRow rid jid st sn sec (pyStrip a)))
          rid jid st sn sec rest := by
  simp only [upsertEvidenceChunks, List.foldl_cons]

theorem mem_insertOrIgnore {db : List EvidenceRow} {r q : EvidenceRow}
    (h : q ∈ db) : q ∈ insertOrIgnore db r := by
  unfold insertOrIgnore
  split
  · exact h
  · exact List.mem_append_left _ h

theorem mem_upsert {rid : ℤ} {jid : Option ℤ} {st sn sec : String}
    (chunks : List Chars) :
    ∀ db, ∀ q ∈ db, q ∈ upsertEvidenceChunks db rid jid st sn sec chunks := by
  induction chunks with
  | nil => intro db q h; exact h
  | cons a rest ih =>
    intro db q h
    rw [upsert_cons]
    apply ih
    split
    · exact h
    · exact mem_insertOrIgnore h

theorem hasConflict_mono {db db' : List EvidenceRow} {r : EvidenceRow}
    (hsub : ∀ q ∈ db, q ∈ db') (h : hasConflict db r = true) :
    hasConflict db' r = true := by
  unfold hasConflict at *
  rw [List.any_eq_true] at *
  obtain ⟨q, hq, hc⟩ := h
  exact ⟨q, hsub q hq, hc⟩

theorem hasConflict_insertOrIgnore_self {db : List EvidenceRow}
    {r : EvidenceRow} (hself : uniqueKeyConflict r r = true) :
    hasConflict (insertOrIgnore db r) r = true := by
  unfold insertOrIgnore
  split
  case isTrue h => exact h
  case isFalse h =>
    unfold hasConflict
    rw [List.any_eq_true]
    exact ⟨r, List.mem_append_right _ (List.mem_singleton_self r), hself⟩

theorem selfConflict_some (rid j : ℤ) (st sn sec : String) (ch : Chars) :
    uniqueKeyConflict (mkEvidenceRow rid (some j) st sn sec ch)
      (mkEvidenceRow rid (some j) st sn sec ch) = true := by
  simp [uniqueKeyConflict, mkEvidenceRow, sqlJobEq]

theorem upsert_conflict_present {rid j : ℤ} {st sn sec : String}
    (chunks : List Chars) :
    ∀ db, ∀ ch ∈ chunks, (pyStrip ch).isEmpty = false →
      hasConflict (upsertEvidenceChunks db rid (some j) st sn sec chunks)
        (mkEvidenceRow rid (some j) st sn sec (pyStrip ch)) = true := by
  induction chunks with
  | nil => intro db ch h; exact absurd h (List.not_mem_nil ch)
  | cons a rest ih =>
    intro db ch hch hne
    rw [upsert_cons]
    rcases List.mem_cons.mp hch with he | hm
    · subst he
      rw [if_neg (by simp [hne])]
      apply hasConflict_mono (mem_upsert rest _)
      exact hasConflict_insertOrIgnore_self (selfConflict_some rid j st sn sec _)
    · exact ih _ ch hm hne

theorem upsert_noop {rid : ℤ} {jid : Option ℤ} {st sn sec : String}
    (chunks : List Chars) :
    ∀ db, (∀ ch ∈ chunks, (pyStrip ch).isEmpty = true ∨
        hasConflict db (mkEvidenceRow rid jid st sn sec (pyStrip ch)) = true) →
      upsertEvidenceChunks db rid jid st sn sec chunks = db := by
  induction chunks with
  | nil => intro db _; rfl
  | cons a rest ih =>
    intro db h
    rw [upsert_cons]
    by_cases he : (pyStrip a).isEmpty = true
    · rw [if_pos he]
      exact ih db (fun ch hm => h ch (List.mem_cons_of_mem a hm))
    · have hc : hasConflict db (mkEvidenceRow rid jid st sn sec (pyStrip a)) = true := by
        rcases h a (List.mem_cons_self a rest) with hx | hx
        · exact absurd hx he
        · exact hx
      have hins : insertOrIgnore db (mkEvidenceRow rid jid st sn sec (pyStrip a)) = db := by
        unfold insertOrIgnore
        rw [if_pos hc]
      rw [if_neg he, hins]
      exact ih db (fun ch hm => h ch (List.mem_cons_of_mem a hm))

/-- C3 (code_bug): re-ingesting identical source text is a no-op whenever
`job_id` is non-NULL — but NOT when `job_id` is NULL.  With a non-NULL
job id, a second identical chunk-and-upsert pass inserts nothing, from
any starting store.  With `job_id = NULL`, the UNIQUE index never fires
(SQL treats NULLs as pairwise distinct), so `INSERT OR IGNORE` inserts a
full duplicate row: ingesting the text "abc" twice under a NULL job id
leaves 2 rows where one ingestion leaves 1. -/
theorem c3_idempotent_ingestion_null_bug :
    (∀ (db : List EvidenceRow) (rid j : ℤ) (st sn sec : String) (text : Chars),
      ingestText (ingestText db rid (some j) st sn sec text)
          rid (some j) st sn sec text
        = ingestText db rid (some j) st sn sec text) ∧
    (ingestText [] 1 none "resume" "resume" "resume" (cs "abc")).length = 1 ∧
    (ingestText (ingestText [] 1 none "resume" "resume" "resume" (cs "abc"))
        1 none "resume" "resume" "resume" (cs "abc")).length = 2 := by
  refine ⟨?_, ?_, ?_⟩
  · intro db rid j st sn sec text
    unfold ingestText
    apply upsert_noop
    intro ch hm
    by_cases he : (pyStrip ch).isEmpty
    · exact Or.inl he
    · exact Or.inr (upsert_conflict_present _ db ch hm (by simpa using he))
  all_goals with_unfolding_all decide

/-- C5 (counterexample): the stored `content_hash` does NOT incorporate
the section label.  Ingesting the same chunk text "abc" under section
labels "s1" and "s2" stores the SAME content hash (the hash of the text
alone), and that stored hash differs from the hash of section+text
(with or without the "\n" separator used by `chunk_text`'s internal
duplicate filter). -/
theorem c5_counterexample :
    (upsertEvidenceChunks [] 1 (some 1) "resume" "resume" "s1" [cs "abc"]).map
        (fun r => r.content_hash)
      = (upsertEvidenceChunks [] 1 (some 1) "resume" "resume" "s2" [cs "abc"]).map
        (fun r => r.content_hash) ∧
    (upsertEvidenceChunks [] 1 (some 1) "resume" "resume" "s1" [cs "abc"]).map
        (fun r => r.content_hash) = [hashText (cs "abc")] ∧
    hashText (cs "abc") ≠ hashText (cs "s1" ++ '\n' :: cs "abc") ∧
    hashText (cs "abc") ≠ hashText (cs "s1" ++ cs "abc") := by
  refine ⟨?_, ?_, ?_, ?_⟩ <;> with_unfolding_all decide

/-- C5 (amended): every evidence row persisted by
`upsert_evidence_chunks` carries `content_hash = _hash_text(chunk_text)`
— the hash of the stripped chunk text alone, independent of the section
label — so chunks differing only in section label receive the same
content hash.  (Hashing of section+text occurs only inside `chunk_text`'s
intra-document duplicate filter.) -/
theorem c5_amended (db : List EvidenceRow) (rid : ℤ) (jid : Option ℤ)
    (st sn sec : String) (chunks : List Chars) :
    (∀ r ∈ upsertEvidenceChunks db rid jid st sn sec chunks,
       r ∈ db ∨ r.content_hash = hashText r.chunk_text) ∧
    (∀ sec1 sec2 : String, ∀ ch : Chars,
       (upsertEvidenceChunks [] rid jid st sn sec1 [ch]).map (fun r => r.content_hash)
         = (upsertEvidenceChunks [] rid jid st sn sec2 [ch]).map (fun r => r.content_hash)) := by
  constructor
  · induction chunks generalizing db with
    | nil => intro r hr; exact Or.inl hr
    | cons a rest ih =>
      intro r hr
      rw [upsert_cons] at hr
      rcases ih _ r hr with hin | hh
      · by_cases he : (pyStrip a).isEmpty
        · rw [if_pos he] at hin
          exact Or.inl hin
        · rw [if_neg he] at hin
          unfold insertOrIgnore at hin
          split at hin
          · exact Or.inl hin
          · rcases List.mem_append.mp hin with h1 | h2
            · exact Or.inl h1
            · right
              rw [List.mem_singleton.mp h2]
              rfl
      · exact Or.inr hh
  · intro sec1 sec2 ch
    show ((if (pyStrip ch).isEmpty then ([] : List EvidenceRow)
            else insertOrIgnore [] (mkEvidenceRow rid jid st sn sec1 (pyStrip ch))).map
          (fun r => r.content_hash))
        = ((if (pyStrip ch).isEmpty then ([] : List EvidenceRow)
            else insertOrIgnore [] (mkEvidenceRow rid jid st sn sec2 (pyStrip ch))).map
          (fun r => r.content_hash))
    split
    · rfl
    · rfl

/-- Witness for `c5_amended`: the row stored by ingesting the chunk
"abc" under section "s1" satisfies the hash equation. -/
theorem c5_amended_witness :
    mkEvidenceRow 1 (some 1) "resume" "resume" "s1" (cs "abc")
      ∈ upsertEvidenceChunks [] 1 (some 1) "resume" "resume" "s1" [cs "abc"] ∧
    (mkEvidenceRow 1 (some 1) "resume" "resume" "s1" (cs "abc")
        ∈ ([] : List EvidenceRow) ∨
      (mkEvidenceRow 1 (some 1) "resume" "resume" "s1" (cs "abc")).content_hash
        = hashText (mkEvidenceRow 1 (some 1) "resume" "resume" "s1" (cs "abc")).chunk_text) :=
  ⟨by with_unfolding_all decide,
   (c5_amended [] 1 (some 1) "resume" "resume" "s1" [cs "abc"]).1 _
     (by with_unfolding_all decide)⟩

theorem filter4_perm {α : Type} [DecidableEq α] (p1 p2 p3 : α → Bool) (l : List α)
    (h12 : ∀ a, p1 a = true → p2 a = false)
    (h13 : ∀ a, p1 a = true → p3 a = false)
    (h23 : ∀ a, p2 a = true → p3 a = false) :
    (l.filter p1 ++ l.filter p2 ++ l.filter p3 ++
      l.filter (fun a => !(p1 a || p2 a || p3 a))).Perm l := by
  induction l with
  | nil => simp
  | cons a t ih =>
    by_cases hp1 : p1 a = true
    · simp only [List.filter_cons, hp1, h12 a hp1, h13 a hp1, if_true,
        Bool.true_or, Bool.not_true, Bool.false_eq_true, if_false]
      simpa using ih.cons a
    · by_cases hp2 : p2 a = true
      · simp only [List.filter_cons, hp1, hp2, h23 a hp2, Bool.false_eq_true,
          if_false, if_true, Bool.false_or, Bool.true_or, Bool.not_true]
        refine List.Perm.trans ?_ (ih.cons a)
        simpa [List.append_assoc] using
          (@List.perm_middle _ a (List.filter p1 t)
            (List.filter p2 t ++ (List.filter p3 t ++
              List.filter (fun x => !(p1 x || p2 x || p3 x)) t)))
      · by_cases hp3 : p3 a = true
        · simp only [List.filter_cons, hp1, hp2, hp3, Bool.false_eq_true,
            if_false, if_true, Bool.false_or, Bool.true_or, Bool.not_true]
          refine List.Perm.trans ?_ (ih.cons a)
          simpa [List.append_assoc] using
            (@List.perm_middle _ a (List.filter p1 t ++ List.filter p2 t)
              (List.filter p3 t ++
                List.filter (fun x => !(p1 x || p2 x || p3 x)) t))
        · simp only [List.filter_cons, hp1, hp2, hp3, Bool.false_eq_true,
            if_false, Bool.false_or, Bool.not_false, if_true]
          refine List.Perm.trans ?_ (ih.cons a)
          simpa [List.append_assoc] using
            (@List.perm_middle _ a
              (List.filter p1 t ++ List.filter p2 t ++ List.filter p3 t)
              (List.filter (fun x => !(p1 x || p2 x || p3 x)) t))

/-- C7 (confirmed): after `rebucket_gap_result` the four bucket lists are
exactly the classification filters of `all_results` (anything that is not
match/partial/gap lands in `signal_gaps`), their concatenation is a
permutation of `all_results` — every result is in exactly one bucket,
since the four predicates are mutually exclusive and exhaustive — and the
summary string reports the stored overall score with exactly the four
bucket sizes.  `all_results` and the score itself are untouched. -/
theorem c7_rebucket_partition (g : GapResult) :
    (rebucketGapResult g).all_results = g.all_results ∧
    (rebucketGapResult g).overall_alignment_score = g.overall_alignment_score ∧
    (rebucketGapResult g).matched_requirements
      = g.all_results.filter (fun r => r.classification == "match") ∧
    (rebucketGapResult g).partial_gaps
      = g.all_results.filter (fun r => r.classification == "partial") ∧
    (rebucketGapResult g).hard_gaps
      = g.all_results.filter (fun r => r.classification == "gap") ∧
    (rebucketGapResult g).signal_gaps
      = g.all_results.filter (fun r =>
          !(r.classification == "match" || r.classification == "partial" ||
            r.classification == "gap")) ∧
    ((rebucketGapResult g).matched_requirements ++
      (rebucketGapResult g).partial_gaps ++ (rebucketGapResult g).hard_gaps ++
      (rebucketGapResult g).signal_gaps).Perm g.all_results ∧
    (∀ r : ReqResult,
      ((if r.classification == "match" then 1 else 0) +
       (if r.classification == "partial" then 1 else 0) +
       (if r.classification == "gap" then 1 else 0) +
       (if !(r.classification == "match" || r.classification == "partial" ||
             r.classification == "gap") then 1 else 0) : ℕ) = 1) ∧
    (rebucketGapResult g).summary
      = summaryStr g.overall_alignment_score
          (g.all_results.filter (fun r => r.classification == "match")).length
          (g.all_results.filter (fun r => r.classification == "partial")).length
          (g.all_results.filter (fun r => r.classification == "gap")).length
          (g.all_results.filter (fun r =>
            !(r.classification == "match" || r.classification == "partial" ||
              r.classification == "gap"))).length := by
  refine ⟨rfl, rfl, rfl, rfl, rfl, rfl, ?_, ?_, rfl⟩
  · exact filter4_perm _ _ _ g.all_results
      (by intro a h; simp_all) (by intro a h; simp_all) (by intro a h; simp_all)
  · intro r
    by_cases h1 : r.classification = "match" <;>
      by_cases h2 : r.classification = "partial" <;>
        by_cases h3 : r.classification = "gap" <;>
          simp_all

/-- Each stage of the override pass only ever raises the three numeric
fields with `max`, so they never decrease. -/
theorem overrideEntry_mono (hd : Bool) (yr : Option ℤ)
    (dids yids : List String) (thr : ℤ) (r : ReqResult) :
    r.match_strength ≤ (overrideEntry hd yr dids yids thr r).1.match_strength ∧
    r.match_strength_pct ≤ (overrideEntry hd yr dids yids thr r).1.match_strength_pct ∧
    r.confidence ≤ (overrideEntry hd yr dids yids thr r).1.confidence := by
  unfold overrideEntry
  cases yr with
  | none =>
    dsimp only
    split_ifs <;>
      refine ⟨?_, ?_, ?_⟩ <;>
        first
          | exact le_refl _
          | exact le_max_left _ _
  | some y =>
    dsimp only
    split_ifs <;>
      refine ⟨?_, ?_, ?_⟩ <;>
        first
          | exact le_refl _
          | exact le_max_left _ _
          | exact le_trans (le_max_left _ _) (le_max_left _ _)

/-- C10 (confirmed): `apply_objective_overrides` rewrites `all_results`
entrywise by `overrideEntry`; an entry whose requirement id is in neither
the degree nor the years id set is returned unchanged in all fields, and
for every entry `match_strength`, `match_strength_pct` and `confidence`
never decrease (each is only ever raised to a floor by `max`). -/
theorem c10_override_frame (g : GapResult) (txt : Chars)
    (dids yids : List String) (thr : ℤ) :
    (applyObjectiveOverrides g txt dids yids thr).1.all_results
      = g.all_results.map (fun r =>
          (overrideEntry (inferHasBachelors txt) (inferYearsExperience txt)
            dids yids thr r).1) ∧
    (∀ r : ReqResult,
      (dids.contains r.requirement_id = false ∧
          yids.contains r.requirement_id = false →
        (overrideEntry (inferHasBachelors txt) (inferYearsExperience txt)
          dids yids thr r).1 = r) ∧
      r.match_strength ≤ (overrideEntry (inferHasBachelors txt)
        (inferYearsExperience txt) dids yids thr r).1.match_strength ∧
      r.match_strength_pct ≤ (overrideEntry (inferHasBachelors txt)
        (inferYearsExperience txt) dids yids thr r).1.match_strength_pct ∧
      r.confidence ≤ (overrideEntry (inferHasBachelors txt)
        (inferYearsExperience txt) dids yids thr r).1.confidence) := by
  constructor
  · simp [applyObjectiveOverrides, List.map_map]
  · intro r
    refine ⟨?_, ?_, ?_, ?_⟩
    · intro h
      unfold overrideEntry
      simp only [h.1, Bool.false_and, Bool.false_eq_true, if_false]
      cases inferYearsExperience txt with
      | none => rfl
      | some y => simp only [h.2, Bool.false_and, Bool.false_eq_true, if_false]
    · exact (overrideEntry_mono (inferHasBachelors txt)
        (inferYearsExperience txt) dids yids thr r).1
    · exact (overrideEntry_mono (inferHasBachelors txt)
        (inferYearsExperience txt) dids yids thr r).2.1
    · exact (overrideEntry_mono (inferHasBachelors txt)
        (inferYearsExperience txt) dids yids thr r).2.2

/-- A gap-classified result entry with a requirement id outside the
default override id sets. -/
def c10Entry : ReqResult :=
  ⟨"REQ-001", "required", "general", cs "x", 3, true, "gap", 0.07, 7, [],
   ["general"], "", 0.385⟩

/-- A gap result holding only `c10Entry`. -/
def c10Gap : GapResult := ⟨20, "", 1, [], [], [c10Entry], [], [c10Entry]⟩

/-- Witness for `c10_override_frame`: on a resume with no degree or year
facts and an entry outside both id sets, the override pass returns the
entry unchanged. -/
theorem c10_override_frame_witness :
    ((["REQ-009"] : List String).contains c10Entry.requirement_id = false ∧
     (["REQ-010"] : List String).contains c10Entry.requirement_id = false) ∧
    (overrideEntry (inferHasBachelors (cs "plain text"))
        (inferYearsExperience (cs "plain text"))
        ["REQ-009"] ["REQ-010"] 15 c10Entry).1 = c10Entry ∧
    (applyObjectiveOverrides c10Gap (cs "plain text")
        ["REQ-009"] ["REQ-010"] 15).1.all_results
      = c10Gap.all_results.map (fun r =>
          (overrideEntry (inferHasBachelors (cs "plain text"))
            (inferYearsExperience (cs "plain text"))
            ["REQ-009"] ["REQ-010"] 15 r).1) :=
  ⟨⟨by with_unfolding_all decide, by with_unfolding_all decide⟩,
   ((c10_override_frame c10Gap (cs "plain text") ["REQ-009"] ["REQ-010"] 15).2
       c10Entry).1
     ⟨by with_unfolding_all decide, by with_unfolding_all decide⟩,
   (c10_override_frame c10Gap (cs "plain text") ["REQ-009"] ["REQ-010"] 15).1⟩

/-- C8 (confirmed): whenever the semantic-similarity collaborator yields
no result — `semantic_similarity` returns `None` because the embedding
client is unavailable or raises (oracle `none`), or because the returned
embedding count mismatches `1 + len(candidates)` — the matcher returns
exactly the top-3 of the unblended lexical ranking (and, being a total
function, never raises); the lexical ranking stands unmodified. -/
theorem c8_semantic_fallback (cosFn : CosFn) (oracle : EmbedOracle)
    (semEnabled : Bool) (req_text : Chars) (req_competency : String)
    (evidence : List EvidenceItem)
    (hfail : semanticSimilarity cosFn oracle req_text
        (((lexicalRanking req_text req_competency evidence).take
            (min 30 (lexicalRanking req_text req_competency evidence).length)).map
          (fun x => x.1.chunk_text)) = none) :
    bestEvidenceForRequirement cosFn oracle semEnabled req_text req_competency
        evidence 3
      = (lexicalRanking req_text req_competency evidence).take 3 ∧
    (∀ q cands, oracle (q :: cands) = none →
        semanticSimilarity cosFn oracle q cands = none) ∧
    (∀ q cands embs, oracle (q :: cands) = some embs →
        embs.length ≠ 1 + cands.length →
        semanticSimilarity cosFn oracle q cands = none) := by
  refine ⟨?_, ?_, ?_⟩
  · unfold bestEvidenceForRequirement
    dsimp only
    by_cases hcond : (semEnabled &&
        !(lexicalRanking req_text req_competency evidence).isEmpty) = true
    · rw [if_pos hcond, hfail]
    · rw [if_neg hcond]
  · intro q cands h
    unfold semanticSimilarity
    rw [h]
  · intro q cands embs h hne
    unfold semanticSimilarity
    rw [h]
    simp only [if_neg hne]

/-- Witness for `c8_semantic_fallback`: with an always-unavailable
embedding client and the semantic re-rank enabled, the end-to-end example
still returns the unblended lexical top-3. -/
theorem c8_semantic_fallback_witness :
    semanticSimilarity (fun _ _ => 0) (fun _ => none) c4ReqText
        (((lexicalRanking c4ReqText "crisis_issues" [c4Evidence]).take
            (min 30 (lexicalRanking c4ReqText "crisis_issues" [c4Evidence]).length)).map
          (fun x => x.1.chunk_text)) = none ∧
    bestEvidenceForRequirement (fun _ _ => 0) (fun _ => none) true c4ReqText
        "crisis_issues" [c4Evidence] 3
      = (lexicalRanking c4ReqText "crisis_issues" [c4Evidence]).take 3 :=
  ⟨rfl,
   (c8_semantic_fallback (fun _ _ => 0) (fun _ => none) true c4ReqText
     "crisis_issues" [c4Evidence] rfl).1⟩

theorem isPrefixB_append {n : Chars} :
    ∀ {l : Chars} (suf : Chars), isPrefixB n l = true → isPrefixB n (l ++ suf) = true := by
  induction n with
  | nil => intro l suf _; rfl
  | cons a as ih =>
    intro l suf h
    cases l with
    | nil => exact absurd h (by simp [isPrefixB])
    | cons b bs =>
      simp only [isPrefixB, Bool.and_eq_true] at h
      simp only [List.cons_append, isPrefixB, Bool.and_eq_true]
      exact ⟨h.1, ih suf h.2⟩

theorem getD_append_lt :
    ∀ (l1 l2 : Chars) (i : ℕ), i < l1.length →
      (l1 ++ l2).getD i ' ' = l1.getD i ' ' := by
  intro l1
  induction l1 with
  | nil => intro l2 i h; simp at h
  | cons c t ih =>
    intro l2 i h
    cases i with
    | zero => rfl
    | succ n =>
      simp only [List.cons_append, List.getD_cons_succ]
      exact ih l2 n (by simpa using h)

theorem getD_append_add :
    ∀ (l1 l2 : Chars) (k : ℕ), (l1 ++ l2).getD (l1.length + k) ' ' = l2.getD k ' ' := by
  intro l1
  induction l1 with
  | nil => intro l2 k; simp
  | cons c t ih =>
    intro l2 k
    have h : (c :: t).length + k = (t.length + k) + 1 := by
      simp [Nat.succ_add]
    rw [h]
    simp only [List.cons_append, List.getD_cons_succ]
    exact ih l2 k

theorem getD_getLast {pre : Chars} {c : Char} (h : pre.getLast? = some c) :
    pre.getD (pre.length - 1) ' ' = c := by
  induction pre with
  | nil => simp at h
  | cons a t ih =>
    cases t with
    | nil => simp_all [List.getLast?]
    | cons b u =>
      rw [List.getLast?_cons_cons] at h
      have hl : (a :: b :: u).length - 1 = ((b :: u).length - 1) + 1 := by
        simp
      rw [hl, List.getD_cons_succ]
      exact ih h

/-- If the lowered resume text contains "bachelor of science" preceded by
the start of the text or a non-word character, `DEGREE_REGEX` matches. -/
theorem degreeSearch_of_word_bachelor {txt pre suf : Chars}
    (hdec : lowerChars txt = pre ++ cs "bachelor of science" ++ suf)
    (hb : pre = [] ∨ ∃ c, pre.getLast? = some c ∧ wordChar c = false) :
    degreeSearch txt = true := by
  unfold degreeSearch
  rw [List.any_eq_true]
  refine ⟨pre.length, List.mem_range.mpr ?_, ?_⟩
  · have : (lowerChars txt).length = pre.length + (19 + suf.length) := by
      rw [hdec]
      simp [cs]
      omega
    omega
  · have hmid : lowerChars txt = pre ++ (cs "bachelor of science" ++ suf) := by
      rw [hdec, List.append_assoc]
    have hword0 : isWordPos (lowerChars txt) pre.length = true := by
      unfold isWordPos
      rw [hmid]
      have := getD_append_add pre (cs "bachelor of science" ++ suf) 0
      simp only [Nat.add_zero] at this
      rw [this]
      rfl
    have hbound : boundaryAt (lowerChars txt) pre.length = true := by
      unfold boundaryAt
      rcases hb with hnil | ⟨c, hc, hw⟩
      · subst hnil
        simpa using hword0
      · have hne : pre.length ≠ 0 := by
          intro h0
          rw [List.length_eq_zero] at h0
          subst h0
          simp at hc
        rw [if_neg hne]
        have hprev : isWordPos (lowerChars txt) (pre.length - 1) = false := by
          unfold isWordPos
          rw [hmid]
          rw [getD_append_lt _ _ _ (by omega)]
          rw [getD_getLast hc]
          exact hw
        rw [hprev, hword0]
        rfl
    have hpref : isPrefixB (cs "bachelor") ((lowerChars txt).drop pre.length) = true := by
      rw [hmid, List.drop_left]
      exact isPrefixB_append suf (by decide)
    have hb8 : boundaryAt (lowerChars txt) (pre.length + 8) = true := by
      unfold boundaryAt
      rw [if_neg (by omega)]
      have h7 : isWordPos (lowerChars txt) (pre.length + 8 - 1) = true := by
        unfold isWordPos
        rw [hmid]
        have : pre.length + 8 - 1 = pre.length + 7 := by omega
        rw [this, getD_append_add]
        have : (cs "bachelor of science" ++ suf).getD 7 ' ' = 'r' := by
          rw [getD_append_lt _ _ _ (by decide)]
          rfl
        rw [this]
        rfl
      have h8 : isWordPos (lowerChars txt) (pre.length + 8) = false := by
        unfold isWordPos
        rw [hmid, getD_append_add]
        have : (cs "bachelor of science" ++ suf).getD 8 ' ' = ' ' := by
          rw [getD_append_lt _ _ _ (by decide)]
          rfl
        rw [this]
        rfl
      rw [h7, h8]
      rfl
    have hbach : degreeAltBachelor (lowerChars txt) pre.length = true := by
      unfold degreeAltBachelor
      rw [hbound, hpref, hb8]
      rfl
    rw [hbach]
    rfl

/-- An audit record produced for an entry carries that entry's
requirement id. -/
theorem overrideEntry_audit_rid (hd : Bool) (yr : Option ℤ)
    (dids yids : List String) (thr : ℤ) (x : ReqResult) :
    ∀ a ∈ (overrideEntry hd yr dids yids thr x).2,
      a.requirement_id = x.requirement_id := by
  intro a ha
  unfold overrideEntry at ha
  cases yr with
  | none =>
    dsimp only at ha
    split_ifs at ha <;> simp_all
  | some y =>
    dsimp only at ha
    split_ifs at ha <;> simp_all

/-- The override pass never changes an entry's requirement id. -/
theorem overrideEntry_rid (hd : Bool) (yr : Option ℤ)
    (dids yids : List String) (thr : ℤ) (x : ReqResult) :
    (overrideEntry hd yr dids yids thr x).1.requirement_id = x.requirement_id := by
  unfold overrideEntry
  cases yr with
  | none =>
    dsimp only
    split_ifs <;> simp_all
  | some y =>
    dsimp only
    split_ifs <;> simp_all

/-- An entry already classified "match" passes through untouched with no
audit record. -/
theorem overrideEntry_match_noop (hd : Bool) (yr : Option ℤ)
    (dids yids : List String) (thr : ℤ) (x : ReqResult)
    (h : x.classification = "match") :
    overrideEntry hd yr dids yids thr x = (x, []) := by
  unfold overrideEntry
  simp only [h]
  cases yr <;> simp [h]

/-- The degree rule fires on a gap-classified entry mapped to REQ-009
under the default configuration. -/
theorem overrideEntry_degree_flip (yr : Option ℤ) (r : ReqResult)
    (hrid : r.requirement_id = "REQ-009") (hcls : r.classification = "gap") :
    overrideEntry true yr ["REQ-009"] ["REQ-010"] 15 r
      = ({ r with
            classification := "match",
            match_strength := max r.match_strength 0.85,
            match_strength_pct := max r.match_strength_pct 85,
            confidence := max r.confidence 0.75 },
         [⟨"REQ-009", "degree_detected", "match"⟩]) := by
  unfold overrideEntry
  simp only [hrid, hcls]
  cases yr <;> simp [List.contains]

/-- A gap-classified result entry mapped to the default degree rule id. -/
def c6Entry : ReqResult :=
  ⟨"REQ-009", "required", "general", cs "Bachelor degree required", 3, true,
   "gap", 0.07, 7, [], ["general"], "", 0.385⟩

/-- A gap result holding only `c6Entry`. -/
def c6Gap : GapResult := ⟨20, "", 1, [], [], [c6Entry], [], [c6Entry]⟩

/-- C6 (counterexample): the resume text
"xBachelor of Science from University" contains both "Bachelor of
Science" and "University" as substrings, yet `DEGREE_REGEX` requires a
word boundary before "bachelor" — the preceding "x" defeats it — so
`apply_objective_overrides` produces NO audit records and leaves the
degree-mapped requirement classified "gap". -/
theorem c6_counterexample :
    isInfixB (cs "Bachelor of Science")
        (cs "xBachelor of Science from University") = true ∧
    isInfixB (cs "University") (cs "xBachelor of Science from University") = true ∧
    (applyObjectiveOverrides c6Gap (cs "xBachelor of Science from University")
        ["REQ-009"] ["REQ-010"] 15).2 = [] ∧
    (applyObjectiveOverrides c6Gap (cs "xBachelor of Science from University")
        ["REQ-009"] ["REQ-010"] 15).1.all_results.map (fun r => r.classification)
      = ["gap"] := by
  refine ⟨?_, ?_, ?_, ?_⟩ <;> with_unfolding_all decide

/-- C6 (amended): if the resume text contains "Bachelor of Science"
case-insensitively at a word boundary (start of text or preceded by a
non-word character) together with "university" (case-insensitively), then
`apply_objective_overrides` under the default configuration flips the
unique degree-mapped requirement (REQ-009) from "gap" to "match" with
match_strength ≥ 0.85, match_strength_pct ≥ 85 and confidence ≥ 0.75,
appending exactly one audit record for it; a second application to the
now-"match" requirement appends zero audit records for it. -/
theorem c6_amended (resume : Chars) (g : GapResult) (l1 l2 : List ReqResult)
    (r : ReqResult) (pre suf : Chars)
    (hdec : lowerChars resume = pre ++ cs "bachelor of science" ++ suf)
    (hb : pre = [] ∨ ∃ c, pre.getLast? = some c ∧ wordChar c = false)
    (hu : isInfixB (cs "university") (lowerChars resume) = true)
    (hall : g.all_results = l1 ++ r :: l2)
    (hrid : r.requirement_id = "REQ-009")
    (hcls : r.classification = "gap")
    (hunique : ∀ x ∈ l1 ++ l2, x.requirement_id ≠ "REQ-009") :
    (∀ x ∈ (applyObjectiveOverrides g resume ["REQ-009"] ["REQ-010"] 15).1.all_results,
        x.requirement_id = "REQ-009" →
          x.classification = "match" ∧ (0.85 : ℚ) ≤ x.match_strength ∧
          (85 : ℤ) ≤ x.match_strength_pct ∧ (0.75 : ℚ) ≤ x.confidence) ∧
    (∃ x ∈ (applyObjectiveOverrides g resume ["REQ-009"] ["REQ-010"] 15).1.all_results,
        x.requirement_id = "REQ-009") ∧
    ((applyObjectiveOverrides g resume ["REQ-009"] ["REQ-010"] 15).2.filter
        (fun a => a.requirement_id == "REQ-009")).length = 1 ∧
    ((applyObjectiveOverrides
        (applyObjectiveOverrides g resume ["REQ-009"] ["REQ-010"] 15).1 resume
        ["REQ-009"] ["REQ-010"] 15).2.filter
        (fun a => a.requirement_id == "REQ-009")).length = 0 := by
  have hdeg : inferHasBachelors resume = true := by
    unfold inferHasBachelors
    rw [degreeSearch_of_word_bachelor hdec hb, hu]
    rfl
  have hout1 : (applyObjectiveOverrides g resume ["REQ-009"] ["REQ-010"] 15).1.all_results
      = (l1 ++ r :: l2).map (fun x =>
          (overrideEntry true (inferYearsExperience resume)
            ["REQ-009"] ["REQ-010"] 15 x).1) := by
    simp [applyObjectiveOverrides, hdeg, hall, List.map_map, Function.comp_def]
  have hout2 : (applyObjectiveOverrides g resume ["REQ-009"] ["REQ-010"] 15).2
      = ((l1 ++ r :: l2).map (fun x =>
          (overrideEntry true (inferYearsExperience resume)
            ["REQ-009"] ["REQ-010"] 15 x).2)).flatten := by
    simp [applyObjectiveOverrides, hdeg, hall, List.map_map, Function.comp_def]
  have hc1 : ∀ x ∈ (applyObjectiveOverrides g resume ["REQ-009"] ["REQ-010"] 15).1.all_results,
      x.requirement_id = "REQ-009" →
        x.classification = "match" ∧ (0.85 : ℚ) ≤ x.match_strength ∧
        (85 : ℤ) ≤ x.match_strength_pct ∧ (0.75 : ℚ) ≤ x.confidence := by
    rw [hout1]
    intro x hx hxr
    rw [List.mem_map] at hx
    obtain ⟨y, hy, hxy⟩ := hx
    have hyr : y.requirement_id = "REQ-009" := by
      rw [← hxy] at hxr
      rw [overrideEntry_rid] at hxr
      exact hxr
    have hyeq : y = r := by
      rcases List.mem_append.mp hy with h1 | h2
      · exact absurd hyr (hunique y (List.mem_append_left _ h1))
      · rcases List.mem_cons.mp h2 with he | h3
        · exact he
        · exact absurd hyr (hunique y (List.mem_append_right _ h3))
    subst hyeq
    rw [overrideEntry_degree_flip _ y hyr hcls] at hxy
    rw [← hxy]
    exact ⟨rfl, le_max_right _ _, le_max_right _ _, le_max_right _ _⟩
  refine ⟨hc1, ?_, ?_, ?_⟩
  · refine ⟨(overrideEntry true (inferYearsExperience resume)
        ["REQ-009"] ["REQ-010"] 15 r).1, ?_, ?_⟩
    · rw [hout1]
      exact List.mem_map_of_mem _
        (List.mem_append_right _ (List.mem_cons_self r l2))
    · rw [overrideEntry_rid]
      exact hrid
  · rw [hout2]
    have hside : ∀ L : List ReqResult, (∀ x ∈ L, x.requirement_id ≠ "REQ-009") →
        ((L.map (fun x => (overrideEntry true (inferYearsExperience resume)
            ["REQ-009"] ["REQ-010"] 15 x).2)).flatten).filter
          (fun a => a.requirement_id == "REQ-009") = [] := by
      intro L hL
      rw [List.filter_eq_nil]
      intro a ha
      rw [List.mem_flatten] at ha
      obtain ⟨ll, hll, hal⟩ := ha
      rw [List.mem_map] at hll
      obtain ⟨x, hx, hlx⟩ := hll
      rw [← hlx] at hal
      have := overrideEntry_audit_rid _ _ _ _ _ _ a hal
      simp only [beq_iff_eq, this]
      exact hL x hx
    rw [List.map_append, List.map_cons, List.flatten_append, List.flatten_cons,
      List.filter_append, List.filter_append, hside l1
        (fun x hx => hunique x (List.mem_append_left _ hx)),
      hside l2 (fun x hx => hunique x (List.mem_append_right _ hx)),
      overrideEntry_degree_flip _ r hrid hcls]
    rfl
  · have hout2b : (applyObjectiveOverrides
        (applyObjectiveOverrides g resume ["REQ-009"] ["REQ-010"] 15).1 resume
        ["REQ-009"] ["REQ-010"] 15).2
        = (((applyObjectiveOverrides g resume ["REQ-009"] ["REQ-010"] 15).1.all_results).map
            (fun x => (overrideEntry true (inferYearsExperience resume)
              ["REQ-009"] ["REQ-010"] 15 x).2)).flatten := by
      simp [applyObjectiveOverrides, hdeg, List.map_map, Function.comp_def]
    rw [hout2b]
    have : (((applyObjectiveOverrides g resume ["REQ-009"] ["REQ-010"] 15).1.all_results).map
        (fun x => (overrideEntry true (inferYearsExperience resume)
          ["REQ-009"] ["REQ-010"] 15 x).2)).flatten.filter
          (fun a => a.requirement_id == "REQ-009") = [] := by
      rw [List.filter_eq_nil]
      intro a ha
      rw [List.mem_flatten] at ha
      obtain ⟨ll, hll, hal⟩ := ha
      rw [List.mem_map] at hll
      obtain ⟨x, hx, hlx⟩ := hll
      rw [← hlx] at hal
      have har := overrideEntry_audit_rid _ _ _ _ _ _ a hal
      by_cases hxr : x.requirement_id = "REQ-009"
      · have hm := (hc1 x hx hxr).1
        rw [overrideEntry_match_noop _ _ _ _ _ _ hm] at hal
        exact absurd hal (List.not_mem_nil a)
      · simp only [beq_iff_eq, har]
        exact hxr
    rw [this]
    rfl

/-- Witness for `c6_amended`: the resume
"Bachelor of Science, Acme University" on a gap result whose only entry
is the gap-classified REQ-009. -/
theorem c6_amended_witness :
    ((applyObjectiveOverrides c6Gap (cs "Bachelor of Science, Acme University")
        ["REQ-009"] ["REQ-010"] 15).2.filter
        (fun a => a.requirement_id == "REQ-009")).length = 1 ∧
    ((applyObjectiveOverrides
        (applyObjectiveOverrides c6Gap (cs "Bachelor of Science, Acme University")
          ["REQ-009"] ["REQ-010"] 15).1 (cs "Bachelor of Science, Acme University")
        ["REQ-009"] ["REQ-010"] 15).2.filter
        (fun a => a.requirement_id == "REQ-009")).length = 0 :=
  ⟨(c6_amended (cs "Bachelor of Science, Acme University") c6Gap [] [] c6Entry
      [] (cs ", acme university") (by with_unfolding_all decide) (Or.inl rfl)
      (by with_unfolding_all decide) rfl rfl rfl (by simp)).2.2.1,
   (c6_amended (cs "Bachelor of Science, Acme University") c6Gap [] [] c6Entry
      [] (cs ", acme university") (by with_unfolding_all decide) (Or.inl rfl)
      (by with_unfolding_all decide) rfl rfl rfl (by simp)).2.2.2⟩

theorem pyRound_eq (q : ℚ) :
    pyRound q
      = (if q - (⌊q⌋ : ℚ) < 1/2 then ⌊q⌋
         else if 1/2 < q - (⌊q⌋ : ℚ) then ⌊q⌋ + 1
         else if ⌊q⌋ % 2 = 0 then ⌊q⌋ else ⌊q⌋ + 1) := rfl

theorem le_pyRound (q : ℚ) : ⌊q⌋ ≤ pyRound q := by
  rw [pyRound_eq]
  split_ifs <;> omega

theorem pyRound_le (q : ℚ) : pyRound q ≤ ⌊q⌋ + 1 := by
  rw [pyRound_eq]
  split_ifs <;> omega

theorem pyRound_zero : pyRound 0 = 0 := by
  rw [pyRound_eq]
  norm_num

theorem pyRound_hundred : pyRound 100 = 100 := by
  rw [pyRound_eq]
  norm_num

theorem pyRound_nonpos {q : ℚ} (h : q ≤ 0) : pyRound q ≤ 0 := by
  have hf0 : ⌊q⌋ ≤ 0 := by
    calc ⌊q⌋ ≤ ⌊(0 : ℚ)⌋ := Int.floor_le_floor h
      _ = 0 := Int.floor_zero
  rw [pyRound_eq]
  split_ifs with h1 h2 h3
  · exact hf0
  · have hcast : (⌊q⌋ : ℚ) < 0 := by
      have := Int.floor_le q
      linarith
    have : ⌊q⌋ < 0 := by exact_mod_cast hcast
    omega
  · exact hf0
  · have hr : (1 : ℚ)/2 ≤ q - (⌊q⌋ : ℚ) := le_of_not_lt h1
    have hcast : (⌊q⌋ : ℚ) < 0 := by linarith
    have : ⌊q⌋ < 0 := by exact_mod_cast hcast
    omega

theorem pyRound_ge_hundred {q : ℚ} (h : (100 : ℚ) ≤ q) : 100 ≤ pyRound q := by
  have : (100 : ℤ) ≤ ⌊q⌋ := Int.le_floor.mpr (by exact_mod_cast h)
  have := le_pyRound q
  omega

theorem pyRound_nonneg {q : ℚ} (h : 0 ≤ q) : 0 ≤ pyRound q := by
  have : (0 : ℤ) ≤ ⌊q⌋ := Int.le_floor.mpr (by exact_mod_cast h)
  have := le_pyRound q
  omega

theorem pyRound_le_hundred {q : ℚ} (h0 : 0 ≤ q) (h : q ≤ 100) :
    pyRound q ≤ 100 := by
  by_cases hf : ⌊q⌋ ≤ 99
  · have := pyRound_le q
    omega
  · have hfl : ⌊q⌋ ≤ ⌊(100 : ℚ)⌋ := Int.floor_le_floor h
    have h100 : ⌊(100 : ℚ)⌋ = 100 := by norm_num
    have hf100 : ⌊q⌋ = 100 := by omega
    have hq : q = 100 := by
      have hle : (100 : ℚ) ≤ q := by
        have := Int.floor_le q
        rw [hf100] at this
        exact_mod_cast this
      linarith
    rw [hq, pyRound_hundred]

/-- Clamping the percentage after Python's `round` (as the code does) and
rounding the clamped ratio scaled by 100 (as the claim's formula does)
agree for every rational. -/
theorem pyRound_clamp_comm (q : ℚ) :
    max 0 (min 100 (pyRound (q * 100))) = pyRound (max 0 (min 1 q) * 100) := by
  rcases lt_trichotomy q 0 with hq | hq | hq
  · have h1 : pyRound (q * 100) ≤ 0 := pyRound_nonpos (by nlinarith)
    have h2 : max 0 (min 1 q) = 0 := by
      rw [min_eq_right (by linarith), max_eq_left (by linarith)]
    have h3 : pyRound ((0 : ℚ) * 100) = 0 := by
      norm_num [pyRound_zero]
    rw [h2, h3]
    omega
  · subst hq
    have h3 : pyRound ((0 : ℚ) * 100) = 0 := by norm_num [pyRound_zero]
    have h2 : max 0 (min 1 (0 : ℚ)) = 0 := by norm_num
    rw [h2, h3]
    norm_num [pyRound_zero]
  · rcases le_or_lt q 1 with hq1 | hq1
    · have h2 : max 0 (min 1 q) = q := by
        rw [min_eq_right hq1, max_eq_right (le_of_lt hq)]
      rw [h2]
      have h0 : 0 ≤ q * 100 := by positivity
      have h100 : q * 100 ≤ 100 := by nlinarith
      have ha := pyRound_nonneg h0
      have hb := pyRound_le_hundred h0 h100
      omega
    · have h2 : max 0 (min 1 q) = 1 := by
        rw [min_eq_left (le_of_lt hq1)]
        norm_num
      rw [h2]
      have h1 : (100 : ℚ) ≤ q * 100 := by nlinarith
      have ha := pyRound_ge_hundred h1
      have h3 : pyRound ((1 : ℚ) * 100) = 100 := by norm_num [pyRound_hundred]
      rw [h3]
      omega

/-- The per-requirement score contribution exactly as the claim states
it: +1.0·weight for "match", +0.5·weight for "partial", −0.25·weight for
"gap", 0 otherwise ("signal_gap"). -/
def claimContribution (classification : String) (weight : ℤ) : ℚ :=
  (if classification = "match" then 1
   else if classification = "partial" then 0.5
   else if classification = "gap" then -0.25 else 0) * weight

theorem claimContribution_eq (c : String) (w : ℤ) :
    claimContribution c w = codeContrib c * w := rfl

/-- The aggregation exactly as the claim states it:
`overall = round(clamp((Σ contribution / Σ weight + 0.25)/1.25, 0, 1) · 100)`
over the (classification, weight) pairs, and 0 when `Σ weight = 0`. -/
def claimOverall (rs : List (String × ℤ)) : ℤ :=
  if (rs.map (fun p => p.2)).sum = 0 then 0
  else
    pyRound (max 0 (min 1
      (((rs.map (fun p => claimContribution p.1 p.2)).sum
          / (((rs.map (fun p => p.2)).sum : ℤ) : ℚ) + 0.25) / 1.25)) * 100)

theorem runStep_shape (cosFn : CosFn) (oracle : EmbedOracle)
    (semEnabled : Bool) (evidence : List EvidenceItem) (req : Req)
    (st : List ReqResult × ℤ × ℚ) :
    runReqStep cosFn oracle semEnabled evidence st req
      = (st.1 ++ (runReqStep cosFn oracle semEnabled evidence ([], 0, 0) req).1,
         st.2.1 + (runReqStep cosFn oracle semEnabled evidence ([], 0, 0) req).2.1,
         st.2.2 + (runReqStep cosFn oracle semEnabled evidence ([], 0, 0) req).2.2) := by
  unfold runReqStep
  dsimp only
  split_ifs <;> simp

theorem runFold_shift (cosFn : CosFn) (oracle : EmbedOracle)
    (semEnabled : Bool) (evidence : List EvidenceItem) (reqs : List Req) :
    ∀ st : List ReqResult × ℤ × ℚ,
      reqs.foldl (runReqStep cosFn oracle semEnabled evidence) st
        = (st.1 ++ (reqs.foldl (runReqStep cosFn oracle semEnabled evidence) ([], 0, 0)).1,
           st.2.1 + (reqs.foldl (runReqStep cosFn oracle semEnabled evidence) ([], 0, 0)).2.1,
           st.2.2 + (reqs.foldl (runReqStep cosFn oracle semEnabled evidence) ([], 0, 0)).2.2) := by
  induction reqs with
  | nil => intro st; simp
  | cons req rest ih =>
    intro st
    rw [List.foldl_cons, List.foldl_cons,
      ih (runReqStep cosFn oracle semEnabled evidence st req),
      ih (runReqStep cosFn oracle semEnabled evidence ([], 0, 0) req),
      runStep_shape cosFn oracle semEnabled evidence req st]
    simp [List.append_assoc, add_assoc]

theorem runFold_sums (cosFn : CosFn) (oracle : EmbedOracle)
    (semEnabled : Bool) (evidence : List EvidenceItem) (reqs : List Req) :
    (∀ q ∈ reqs, q.weight = 1 ∨ q.weight = 3) →
    (reqs.foldl (runReqStep cosFn oracle semEnabled evidence) ([], 0, 0)).2.1
        = (((reqs.foldl (runReqStep cosFn oracle semEnabled evidence) ([], 0, 0)).1).map
            (fun r => r.weight)).sum ∧
    (reqs.foldl (runReqStep cosFn oracle semEnabled evidence) ([], 0, 0)).2.2
        = (((reqs.foldl (runReqStep cosFn oracle semEnabled evidence) ([], 0, 0)).1).map
            (fun r => claimContribution r.classification r.weight)).sum ∧
    ∀ r ∈ (reqs.foldl (runReqStep cosFn oracle semEnabled evidence) ([], 0, 0)).1,
      0 < r.weight := by
  induction reqs with
  | nil => intro _; simp
  | cons req rest ih =>
    intro hw
    obtain ⟨ihW, ihC, ihpos⟩ := ih (fun q hq => hw q (List.mem_cons_of_mem _ hq))
    rw [List.foldl_cons,
      runFold_shift cosFn oracle semEnabled evidence rest
        (runReqStep cosFn oracle semEnabled evidence ([], 0, 0) req)]
    by_cases he : (pyStrip req.text).isEmpty
    · have hstep : runReqStep cosFn oracle semEnabled evidence ([], 0, 0) req
          = ([], 0, 0) := by
        simp [runReqStep, he]
      rw [hstep]
      simpa using ⟨ihW, ihC, ihpos⟩
    · have hstep : runReqStep cosFn oracle semEnabled evidence ([], 0, 0) req
          = ([reqResultOf cosFn oracle semEnabled evidence req],
             (reqResultOf cosFn oracle semEnabled evidence req).weight,
             codeContrib (reqResultOf cosFn oracle semEnabled evidence req).classification *
               (reqResultOf cosFn oracle semEnabled evidence req).weight) := by
        simp [runReqStep, he]
      rw [hstep]
      have hwpos : 0 < (reqResultOf cosFn oracle semEnabled evidence req).weight := by
        have hrw : (reqResultOf cosFn oracle semEnabled evidence req).weight
            = (if req.weight = 0 then 1 else req.weight) := rfl
        rcases hw req (List.mem_cons_self req rest) with h1 | h3 <;>
          rw [hrw] <;> simp_all <;> omega
      refine ⟨?_, ?_, ?_⟩
      · simp only [List.cons_append, List.nil_append, List.map_cons,
          List.sum_cons, ihW]
      · simp only [List.cons_append, List.nil_append, List.map_cons,
          List.sum_cons, ihC, claimContribution_eq]
      · intro r hr
        simp only [List.cons_append, List.nil_append, List.mem_cons] at hr
        rcases hr with he' | hm
        · rw [he']
          exact hwpos
        · exact ihpos r hm

theorem extractStep_weights (st : String × ℕ × List Req) (ln : Chars)
    (h : ∀ q ∈ st.2.2, q.weight = 1 ∨ q.weight = 3) :
    ∀ q ∈ (extractLineStep st ln).2.2, q.weight = 1 ∨ q.weight = 3 := by
  intro q hq
  unfold extractLineStep at hq
  dsimp only at hq
  split_ifs at hq
  all_goals first
    | exact h q hq
    | exact (List.mem_append.mp hq).elim (fun hold => h q hold)
        (fun hnew => by rw [List.mem_singleton.mp hnew]; simp)

theorem extract_weights (jd : Chars) :
    ∀ q ∈ extractRequirementsDeterministic jd, q.weight = 1 ∨ q.weight = 3 := by
  unfold extractRequirementsDeterministic
  dsimp only
  split_ifs
  · simp
  · have aux : ∀ (lines : List Chars) (st : String × ℕ × List Req),
        (∀ q ∈ st.2.2, q.weight = 1 ∨ q.weight = 3) →
        ∀ q ∈ (lines.foldl extractLineStep st).2.2, q.weight = 1 ∨ q.weight = 3 := by
      intro lines
      induction lines with
      | nil => intro st h; exact h
      | cons ln rest ih =>
        intro st h
        rw [List.foldl_cons]
        exact ih _ (extractStep_weights st ln h)
    exact aux _ _ (by simp)

theorem runGapCore_overall (cosFn : CosFn) (oracle : EmbedOracle)
    (semEnabled : Bool) (reqs : List Req) (evidence : List EvidenceItem)
    (hw : ∀ q ∈ reqs, q.weight = 1 ∨ q.weight = 3) :
    (runGapCore cosFn oracle semEnabled reqs evidence).overall_alignment_score
      = claimOverall ((runGapCore cosFn oracle semEnabled reqs evidence).all_results.map
          (fun r => (r.classification, r.weight))) := by
  obtain ⟨hW, hC, hpos⟩ := runFold_sums cosFn oracle semEnabled evidence reqs hw
  have hall : (runGapCore cosFn oracle semEnabled reqs evidence).all_results
      = (reqs.foldl (runReqStep cosFn oracle semEnabled evidence) ([], 0, 0)).1 := rfl
  have hov : (runGapCore cosFn oracle semEnabled reqs evidence).overall_alignment_score
      = (if (reqs.foldl (runReqStep cosFn oracle semEnabled evidence) ([], 0, 0)).2.1 ≤ 0
         then 0
         else max 0 (min 100 (pyRound
           (((reqs.foldl (runReqStep cosFn oracle semEnabled evidence) ([], 0, 0)).2.2
              / (((reqs.foldl (runReqStep cosFn oracle semEnabled evidence) ([], 0, 0)).2.1 : ℤ) : ℚ)
              + 0.25) / 1.25 * 100)))) := rfl
  rw [hov, hall]
  unfold claimOverall
  rw [List.map_map, List.map_map]
  have hcomp1 : ((fun p : String × ℤ => p.2) ∘ fun r : ReqResult =>
      (r.classification, r.weight)) = fun r : ReqResult => r.weight := rfl
  have hcomp2 : ((fun p : String × ℤ => claimContribution p.1 p.2) ∘ fun r : ReqResult =>
      (r.classification, r.weight)) = fun r : ReqResult =>
        claimContribution r.classification r.weight := rfl
  rw [hcomp1, hcomp2, ← hW, ← hC]
  have hWnn : 0 ≤ (reqs.foldl (runReqStep cosFn oracle semEnabled evidence) ([], 0, 0)).2.1 := by
    rw [hW]
    apply List.sum_nonneg
    intro x hx
    rw [List.mem_map] at hx
    obtain ⟨r, hr, hxr⟩ := hx
    rw [← hxr]
    exact le_of_lt (hpos r hr)
  by_cases hW0 : (reqs.foldl (runReqStep cosFn oracle semEnabled evidence) ([], 0, 0)).2.1 = 0
  · rw [if_pos (by omega), if_pos hW0]
  · rw [if_neg (by omega), if_neg hW0]
    exact pyRound_clamp_comm
      (((reqs.foldl (runReqStep cosFn oracle semEnabled evidence) ([], 0, 0)).2.2
          / (((reqs.foldl (runReqStep cosFn oracle semEnabled evidence) ([], 0, 0)).2.1 : ℤ) : ℚ)
          + 0.25) / 1.25)

/-- C1 (confirmed): for every job description and evidence set (and any
semantic-rerank configuration), `run_grounded_gap_analysis` produces
`overall_alignment_score =
round(clamp((Σ contribution / Σ weight + 0.25)/1.25, 0, 1) · 100)` where
each non-empty requirement contributes +1.0·weight when classified
"match", +0.5·weight when "partial", −0.25·weight when "gap" and 0 when
"signal_gap" (`claimOverall` over the (classification, weight) pairs of
`all_results`), and the score is 0 when `Σ weight = 0` — in particular
for an empty requirement set. -/
theorem c1_overall_alignment_formula (cosFn : CosFn) (oracle : EmbedOracle)
    (semEnabled : Bool) (jd : Chars) (evidence : List EvidenceItem) :
    (runGroundedGapAnalysis cosFn oracle semEnabled jd evidence).overall_alignment_score
      = claimOverall
          ((runGroundedGapAnalysis cosFn oracle semEnabled jd evidence).all_results.map
            (fun r => (r.classification, r.weight))) ∧
    (extractRequirementsDeterministic jd = [] →
      (runGroundedGapAnalysis cosFn oracle semEnabled jd evidence).overall_alignment_score
        = 0) := by
  constructor
  · exact runGapCore_overall cosFn oracle semEnabled
      (extractRequirementsDeterministic jd) evidence (extract_weights jd)
  · intro hempty
    unfold runGroundedGapAnalysis
    rw [hempty]
    rfl

/-- Witness for `c1_overall_alignment_formula`: the empty job description
extracts no requirements and scores 0. -/
theorem c1_overall_alignment_formula_witness :
    extractRequirementsDeterministic (cs "") = [] ∧
    (runGroundedGapAnalysis (fun _ _ => 0) (fun _ => none) false (cs "")
        []).overall_alignment_score = 0 :=
  ⟨by with_unfolding_all decide,
   (c1_overall_alignment_formula (fun _ _ => 0) (fun _ => none) false
     (cs "") []).2 (by with_unfolding_all decide)⟩
